import Mathlib

/-!
Verification development for the `aws-tools` collection of operational
scripts (six standalone Python programs that read and mutate AWS resource
metadata).  Each script is shallowly embedded: vendor API calls become
oracle functions supplied by an environment record, observable behaviour
(stdout text, log messages, API reads and mutations, file accesses) becomes
an explicit list of `Effect`s, and Python exception flow becomes an
`Option PyExc` result threaded through the computation.
-/

namespace AwsTools

/-- A single AWS tag, the `{'Key': ..., 'Value': ...}` dictionaries that the
EC2 API returns in `Tags` lists. -/
structure Tag where
  Key : String
  Value : String
deriving DecidableEq, Repr

/-- Python truthiness of an optional string (`if x:` where `x` is a `str`
or `None`): `None` and the empty string are falsy, every other string is
truthy. -/
def truthyStr : Option String → Bool
  | none => false
  | some s => s ≠ ""

/-- Python `str()`/f-string rendering of an optional string: `None` prints
as the four characters `None`, a string prints as itself. -/
def pyStr : Option String → String
  | none => "None"
  | some s => s

/-- Python `x or 'None'` applied to an optional string (used by
`propagate-tags.py` for the old tag value): a falsy `x` (absent tag or
empty string) is replaced by the literal `'None'`. -/
def pyOrNone : Option String → String
  | none => "None"
  | some s => if s = "" then "None" else s

/-- Embeds `search_for_tag(list_of_dicts, search_tag)`, defined identically
in `propagate-tags.py`, `delete-tag.py`, `get-security-groups.py` and
`cloudtrail-watch-for-reboot.py` (the latter uses `None` instead of `False`
as the `next` default, which does not change the result).  A `None` or
empty tag list returns `None`; otherwise the `Value` of the first element
whose `Key` equals the searched key is returned (a found tag dictionary is
always a non-empty dict, hence truthy, so its `Value` is returned even when
that value is the empty string); no match returns `None`. -/
def search_for_tag (list_of_dicts : Option (List Tag)) (search_tag : String) :
    Option String :=
  match list_of_dicts with
  | none => none
  | some [] => none
  | some l =>
    match l.find? (fun item => item.Key == search_tag) with
    | some found_tag => some found_tag.Value
    | none => none

/-- Embeds `key_defined_and_not_none(this_key, this_dict)` from
`propagate-tags.py` / `get-security-groups.py`, specialised to optional
values already extracted from a dictionary: the key must be present and its
value truthy. -/
def key_defined_and_not_none_str (v : Option String) : Bool :=
  truthyStr v

/-- A `{'Name': ..., 'Values': [...]}` element of a boto3 `Filters`
argument. -/
structure Filter where
  Name : String
  Values : List String
deriving DecidableEq, Repr

/-- Errors raised by a vendor API call, by `botocore` exception class. -/
inductive ApiError
  | clientError (msg : String)
  | noCredentials (msg : String)
  | otherError (msg : String)
deriving DecidableEq, Repr

/-- Message text of an API error (what `f"{e}"` / `logger.error(e)`
renders). -/
def ApiError.msg : ApiError → String
  | .clientError m => m
  | .noCredentials m => m
  | .otherError m => m

/-- A Python exception in flight: an API error propagating out of a call,
an `IndexError`/`NameError` from plain Python code, or `SystemExit`. -/
inductive PyExc
  | api (e : ApiError)
  | indexError
  | nameError
  | systemExit
deriving DecidableEq, Repr

/-- How a whole script invocation ends: normal completion, termination via
`SystemExit`, or an uncaught exception (traceback). -/
inductive Outcome
  | normal
  | sysExit
  | uncaught
deriving DecidableEq, Repr

/-- Final outcome of a run given the exception (if any) left uncaught at
top level. -/
def outcomeOf : Option PyExc → Outcome
  | none => .normal
  | some .systemExit => .sysExit
  | some _ => .uncaught

/-- Non-mutating vendor API calls issued by the scripts. -/
inductive ApiCall
  | s3GetObject (bucket key : String)
  | ec2DescribeInstances (filters : List Filter)
  | ec2DescribeVolumes (filters : List Filter)
  | ec2DescribeSnapshots (filters : List Filter)
  | iamListUsers
  | iamListAccessKeys (user : String)
  | describeSecurityGroups (vpc : String) (sgLimit : Option String)
deriving DecidableEq, Repr

/-- Mutating vendor API calls issued by the scripts. -/
inductive ApiMutation
  | createTags (resource key value : String)
  | deleteTags (resource key : String)
  | snsPublish (region arn message : String)
  | dynamoPutItem (table : String) (item : List (String × String))
deriving DecidableEq, Repr

/-- One observable effect of a script run. -/
inductive Effect
  | printOut (s : String)
  | logInfo (s : String)
  | logError (s : String)
  | api (c : ApiCall)
  | mutate (m : ApiMutation)
  | fileRead (path : String)
  | fileWrite (path : String)
deriving DecidableEq, Repr

/-- Whether an effect writes to the local filesystem. -/
def Effect.isFileWrite : Effect → Bool
  | .fileWrite _ => true
  | _ => false

/-- The result of a piece of straight-line Python: the effects it produced
and the exception (if any) that aborted it. -/
abbrev Run := List Effect × Option PyExc

/-- Sequential composition of two statements: a raised exception in the
first aborts the second, exactly as in Python. -/
def seqRun (x : Run) (y : Run) : Run :=
  match x with
  | (es, some e) => (es, some e)
  | (es, none) => (es ++ y.1, y.2)

theorem seqRun_raise (es : List Effect) (e : PyExc) (y : Run) :
    seqRun (es, some e) y = (es, some e) := rfl

theorem seqRun_ok (es : List Effect) (y : Run) :
    seqRun (es, none) y = (es ++ y.1, y.2) := rfl

theorem seqRun_none_iff (x y : Run) :
    (seqRun x y).2 = none ↔ x.2 = none ∧ y.2 = none := by
  obtain ⟨es, oe⟩ := x
  cases oe <;> simp [seqRun]

/-- The API reads and mutations contained in an effect trace, in order. -/
def apiEvents (es : List Effect) : List Effect :=
  es.filter (fun e => match e with
    | .api _ => true
    | .mutate _ => true
    | _ => false)

/-- The mutating API calls contained in an effect trace, in order. -/
def mutationsOf (es : List Effect) : List ApiMutation :=
  es.filterMap (fun e => match e with
    | .mutate m => some m
    | _ => none)

/-- The stdout print payloads contained in an effect trace, in order. -/
def printsOf (es : List Effect) : List String :=
  es.filterMap (fun e => match e with
    | .printOut s => some s
    | _ => none)

/-- The SNS publications `(region, topic arn, message)` contained in an
effect trace, in order. -/
def snsPublishes (es : List Effect) : List (String × String × String) :=
  es.filterMap (fun e => match e with
    | .mutate (.snsPublish r a m) => some (r, a, m)
    | _ => none)

/-- The string `characters` of `get-security-groups.py`, the symbol set
whose members `tf_safe_name` replaces by an underscore (written with hex
escapes for the backtick, braces and apostrophe). -/
def characters : String := " ~\x60!@#$%^&*()-_=+[]\x7b\x7d;:\x27\",.<>/?\\|"

/-- One `text.replace(char, "_")` application at the level of a single
character: `x` becomes an underscore when it equals the replaced char. -/
def replaceStep (x : Char) (c : Char) : Char := if x == c then '_' else x

/-- The `for char in characters: if char in text: text = text.replace(char,
"_")` loop of `tf_safe_name`, at the level of character lists (the `in
text` membership guard only skips no-op replacements and does not change
the result). -/
def replaceSymbolsL (l : List Char) : List Char :=
  characters.data.foldl (fun t c => t.map (fun x => replaceStep x c)) l

/-- The ASCII uppercase-to-lowercase table, modelling Python `str.lower()`
on the ASCII range (the security-group names this script lowercases are
ASCII). -/
def lowerPairs : List (Char × Char) :=
  [('A','a'),('B','b'),('C','c'),('D','d'),('E','e'),('F','f'),('G','g'),('H','h'),
   ('I','i'),('J','j'),('K','k'),('L','l'),('M','m'),('N','n'),('O','o'),('P','p'),
   ('Q','q'),('R','r'),('S','s'),('T','t'),('U','u'),('V','v'),('W','w'),('X','x'),
   ('Y','y'),('Z','z')]

/-- Lowercase one character per `lowerPairs`; characters outside A-Z are
unchanged. -/
def pyLowerChar (c : Char) : Char :=
  ((lowerPairs.find? (fun p => p.1 == c)).map (fun p => p.2)).getD c

/-- Python `text.lower()` at the level of character lists. -/
def pyLowerL (l : List Char) : List Char := l.map pyLowerChar

/-- Whether `char * 2 in text` holds: two adjacent occurrences of `c`. -/
def hasDoubled (c : Char) : List Char → Bool
  | a :: b :: rest => (a == c && b == c) || hasDoubled c (b :: rest)
  | _ => false

/-- One `text.replace(char * 2, char)` pass: left-to-right, non-overlapping
replacement of the doubled character by a single one, as Python `str.replace`
performs it. -/
def replacePass (c : Char) : List Char → List Char
  | a :: b :: rest =>
    if a == c && b == c then c :: replacePass c rest
    else a :: replacePass c (b :: rest)
  | l => l

/-- The body of `dedup`'s `for count in range(len(text))` loop, iterated
`n` times: each iteration replaces doubled characters once if any are
present. -/
def dedupIter (c : Char) : Nat → List Char → List Char
  | 0, t => t
  | n + 1, t => dedupIter c n (if hasDoubled c t then replacePass c t else t)

/-- Embeds `dedup(char, text)` of `get-security-groups.py` on character
lists: the replacement pass runs `len(text)` times, `len(text)` being fixed
at entry. -/
def dedupL (c : Char) (t : List Char) : List Char := dedupIter c t.length t

/-- Embeds `dedup(char, text)` of `get-security-groups.py`. -/
def dedup (ch : Char) (text : String) : String := ⟨dedupL ch text.data⟩

/-- The body of `tf_safe_name` at the level of character lists: replace
every character of the symbol set by an underscore, lowercase, then apply
`dedup`'s loop to remove duplicate adjacent underscores. -/
def tfSafeNameL (text : List Char) : List Char :=
  dedupL '_' (pyLowerL (replaceSymbolsL text))

/-- Embeds `tf_safe_name(text)` of `get-security-groups.py`. -/
def tf_safe_name (text : String) : String := ⟨tfSafeNameL text.data⟩

/-- Embeds `make_tf_safe_sg_name(sg_name)` of `get-security-groups.py`:
append `_sg` when the safe name does not already end with it. -/
def make_tf_safe_sg_name (sg_name : String) : String :=
  let safe_name := tf_safe_name sg_name
  if ("_sg".data).isSuffixOf safe_name.data then safe_name
  else safe_name ++ "_sg"

theorem foldl_replaceStep_eq (cs : List Char) (x : Char) :
    cs.foldl replaceStep x = if x ∈ cs then '_' else x := by
  induction cs generalizing x with
  | nil => simp
  | cons c cs ih =>
    simp only [List.foldl_cons, List.mem_cons]
    by_cases hx : x = c
    · subst hx
      have hs : replaceStep x x = '_' := by simp [replaceStep]
      rw [hs, ih]
      by_cases h2 : '_' ∈ cs <;> simp [h2, replaceStep]
    · have hs : replaceStep x c = x := by simp [replaceStep, hx]
      rw [hs, ih]
      simp [hx]

theorem replaceSymbolsL_eq_map (l : List Char) :
    replaceSymbolsL l = l.map (fun x => if x ∈ characters.data then '_' else x) := by
  have hgen : ∀ (cs : List Char) (t : List Char),
      cs.foldl (fun t c => t.map (fun x => replaceStep x c)) t
        = t.map (fun x => cs.foldl replaceStep x) := by
    intro cs
    induction cs with
    | nil => intro t; simp
    | cons c cs ih =>
      intro t
      simp only [List.foldl_cons, ih, List.map_map]
      rfl
  rw [replaceSymbolsL, hgen]
  apply List.map_congr_left
  intro x _
  exact foldl_replaceStep_eq characters.data x

theorem pyLowerChar_underscore : pyLowerChar '_' = '_' := by decide

theorem pyLowerChar_idem (c : Char) :
    pyLowerChar (pyLowerChar c) = pyLowerChar c := by
  have hpairs : ∀ p ∈ lowerPairs, ∀ q ∈ lowerPairs, ¬(q.1 == p.2) = true := by decide
  unfold pyLowerChar
  cases hf : lowerPairs.find? (fun p => p.1 == c) with
  | none => simp [hf]
  | some p =>
    have hp : p ∈ lowerPairs := List.mem_of_find?_eq_some hf
    have hnone : lowerPairs.find? (fun q => q.1 == p.2) = none := by
      rw [List.find?_eq_none]
      intro q hq
      exact hpairs p hp q hq
    simp [hf, hnone]

theorem pyLowerChar_not_symbol (c : Char) (h : c ∉ characters.data) :
    pyLowerChar c ∉ characters.data := by
  have hpairs : ∀ p ∈ lowerPairs, p.2 ∉ characters.data := by decide
  unfold pyLowerChar
  cases hf : lowerPairs.find? (fun p => p.1 == c) with
  | none => simpa using h
  | some p =>
    have hp : p ∈ lowerPairs := List.mem_of_find?_eq_some hf
    simpa using hpairs p hp

theorem length_replacePass_le (c : Char) (l : List Char) :
    (replacePass c l).length ≤ l.length := by
  induction l using replacePass.induct c with
  | case1 a b rest h ih => simp [replacePass, h]; omega
  | case2 a b rest h ih => simp [replacePass, h] at ih ⊢; omega
  | case3 l h => simp [replacePass]

theorem replacePass_eq_self_of_short (c : Char) (l : List Char)
    (hshape : ∀ (a b : Char) (rest : List Char), l = a :: b :: rest → False) :
    replacePass c l = l := by
  cases l with
  | nil => rfl
  | cons a t =>
    cases t with
    | nil => rfl
    | cons b r => exact absurd rfl (hshape a b r)

theorem length_replacePass_lt (c : Char) (l : List Char)
    (h : hasDoubled c l = true) : (replacePass c l).length < l.length := by
  induction l using replacePass.induct c with
  | case1 a b rest hc ih =>
    have := length_replacePass_le c rest
    simp only [replacePass, if_pos hc, List.length_cons]
    omega
  | case2 a b rest hc ih =>
    rw [hasDoubled] at h
    simp only [hc, Bool.false_or] at h
    have := ih h
    simp only [replacePass, if_neg hc, List.length_cons] at this ⊢
    omega
  | case3 l hshape =>
    exfalso
    cases l with
    | nil => simp [hasDoubled] at h
    | cons a t =>
      cases t with
      | nil => simp [hasDoubled] at h
      | cons b r => exact hshape a b r rfl

theorem mem_replacePass (c : Char) (l : List Char) :
    ∀ x, x ∈ replacePass c l → x ∈ l := by
  induction l using replacePass.induct c with
  | case1 a b rest hc ih =>
    intro x h
    simp only [Bool.and_eq_true, beq_iff_eq] at hc
    obtain ⟨hac, hbc⟩ := hc
    rw [replacePass, if_pos (by simp [hac, hbc])] at h
    rcases List.mem_cons.mp h with h1 | h1
    · subst h1
      simp [hac]
    · simp [List.mem_cons, ih x h1]
  | case2 a b rest hc ih =>
    intro x h
    rw [replacePass, if_neg hc] at h
    rcases List.mem_cons.mp h with h1 | h1
    · simp [h1]
    · rcases List.mem_cons.mp (ih x h1) with h2 | h2
      · simp [List.mem_cons, h2]
      · simp [List.mem_cons, h2]
  | case3 l hshape =>
    intro x h
    rwa [replacePass_eq_self_of_short c l hshape] at h

theorem dedupIter_no_doubled (c : Char) (n : Nat) (t : List Char)
    (h : hasDoubled c t = false) : dedupIter c n t = t := by
  induction n with
  | zero => rfl
  | succ n ih => rw [dedupIter, if_neg (by simp [h]), ih]

theorem hasDoubled_dedupIter (c : Char) (n : Nat) (t : List Char)
    (hn : t.length ≤ n) : hasDoubled c (dedupIter c n t) = false := by
  induction n generalizing t with
  | zero =>
    have : t = [] := List.length_eq_zero.mp (Nat.le_zero.mp hn)
    subst this
    rfl
  | succ n ih =>
    cases hd : hasDoubled c t with
    | false =>
      rw [dedupIter, if_neg (by simp [hd]), dedupIter_no_doubled c n t hd]
      exact hd
    | true =>
      rw [dedupIter, if_pos (by simp [hd])]
      exact ih (replacePass c t)
        (Nat.le_of_lt_succ (Nat.lt_of_lt_of_le (length_replacePass_lt c t hd) hn))

theorem mem_dedupIter (c : Char) (n : Nat) (t : List Char) (x : Char)
    (h : x ∈ dedupIter c n t) : x ∈ t := by
  induction n generalizing t with
  | zero => exact h
  | succ n ih =>
    rw [dedupIter] at h
    by_cases hd : hasDoubled c t = true
    · rw [if_pos hd] at h
      exact mem_replacePass c t x (ih _ h)
    · rw [if_neg hd] at h
      exact ih _ h

theorem hasDoubled_dedupL (c : Char) (t : List Char) :
    hasDoubled c (dedupL c t) = false :=
  hasDoubled_dedupIter c t.length t (Nat.le_refl _)

theorem mem_dedupL (c : Char) (t : List Char) (x : Char)
    (h : x ∈ dedupL c t) : x ∈ t :=
  mem_dedupIter c t.length t x h

theorem string_data_ext {a b : String} (h : a.data = b.data) : a = b := by
  cases a
  cases b
  cases h
  rfl

theorem map_id_of_fixed {α : Type} (f : α → α) (l : List α)
    (h : ∀ a ∈ l, f a = a) : l.map f = l := by
  induction l with
  | nil => rfl
  | cons a as ih =>
    rw [List.map_cons, h a (by simp), ih (fun b hb => h b (by simp [hb]))]

theorem tf_safe_name_data (t : String) :
    (tf_safe_name t).data = dedupL '_' (pyLowerL (replaceSymbolsL t.data)) := by
  rw [tf_safe_name, tfSafeNameL]

theorem mem_tf_safe_name (t : String) (x : Char)
    (h : x ∈ (tf_safe_name t).data) :
    ∃ y, x = pyLowerChar (if y ∈ characters.data then '_' else y) := by
  rw [tf_safe_name_data] at h
  have h1 : x ∈ pyLowerL (replaceSymbolsL t.data) := mem_dedupL _ _ _ h
  rw [pyLowerL, replaceSymbolsL_eq_map, List.map_map] at h1
  obtain ⟨y, _, hy⟩ := List.mem_map.mp h1
  exact ⟨y, hy.symm⟩

theorem tf_safe_name_no_symbol (t : String) (x : Char)
    (hx : x ∈ (tf_safe_name t).data) (hc : x ∈ characters.data) : x = '_' := by
  obtain ⟨y, hy⟩ := mem_tf_safe_name t x hx
  by_cases hmem : y ∈ characters.data
  · rw [hy, if_pos hmem, pyLowerChar_underscore]
  · rw [if_neg hmem] at hy
    subst hy
    exact absurd hc (pyLowerChar_not_symbol y hmem)

theorem tf_safe_name_lower_fixed (t : String) (x : Char)
    (hx : x ∈ (tf_safe_name t).data) : pyLowerChar x = x := by
  obtain ⟨y, hy⟩ := mem_tf_safe_name t x hx
  rw [hy, pyLowerChar_idem]

theorem tf_safe_name_no_doubled (t : String) :
    hasDoubled '_' (tf_safe_name t).data = false := by
  rw [tf_safe_name_data]
  exact hasDoubled_dedupL '_' _

theorem tf_safe_name_idem (t : String) :
    tf_safe_name (tf_safe_name t) = tf_safe_name t := by
  have hA : replaceSymbolsL (tf_safe_name t).data = (tf_safe_name t).data := by
    rw [replaceSymbolsL_eq_map]
    apply map_id_of_fixed
    intro a ha
    by_cases hmem : a ∈ characters.data
    · simp only [if_pos hmem]
      exact (tf_safe_name_no_symbol t a ha hmem).symm
    · simp only [if_neg hmem]
  have hB : pyLowerL (tf_safe_name t).data = (tf_safe_name t).data := by
    rw [pyLowerL]
    apply map_id_of_fixed
    intro a ha
    exact tf_safe_name_lower_fixed t a ha
  have hC : dedupL '_' (tf_safe_name t).data = (tf_safe_name t).data := by
    rw [dedupL]
    exact dedupIter_no_doubled '_' _ _ (tf_safe_name_no_doubled t)
  apply string_data_ext
  rw [tf_safe_name_data, hA, hB, hC]

theorem make_tf_safe_sg_name_suffix (s : String) :
    ("_sg".data).isSuffixOf (make_tf_safe_sg_name s).data = true := by
  simp only [make_tf_safe_sg_name]
  split
  next h => exact h
  next h =>
    rw [String.data_append, List.isSuffixOf_iff_suffix]
    exact List.suffix_append _ _

/-- C8: `tf_safe_name` is idempotent; its result never contains two
adjacent underscores nor any character from the replaced symbol set other
than the underscore (the loop replaces the underscore by itself, so it is
the only member of the set that can appear in a result); consequently
`make_tf_safe_sg_name` always returns a name ending in `_sg`. -/
theorem C8_tf_safe_name_idempotent (t s : String) :
    tf_safe_name (tf_safe_name t) = tf_safe_name t
    ∧ hasDoubled '_' (tf_safe_name t).data = false
    ∧ (∀ x ∈ (tf_safe_name t).data, x ∈ characters.data → x = '_')
    ∧ ("_sg".data).isSuffixOf (make_tf_safe_sg_name s).data = true :=
  ⟨tf_safe_name_idem t, tf_safe_name_no_doubled t,
   fun x hx hc => tf_safe_name_no_symbol t x hx hc,
   make_tf_safe_sg_name_suffix s⟩

/-- Witness for C8 at concrete inputs. -/
theorem C8_tf_safe_name_idempotent_witness :
    tf_safe_name (tf_safe_name "My App (dev)") = tf_safe_name "My App (dev)"
    ∧ ("_sg".data).isSuffixOf (make_tf_safe_sg_name "web srv").data = true :=
  ⟨(C8_tf_safe_name_idempotent "My App (dev)" "web srv").1,
   (C8_tf_safe_name_idempotent "My App (dev)" "web srv").2.2.2⟩

theorem search_for_tag_eq_find (l : List Tag) (key : String) :
    search_for_tag (some l) key
      = (l.find? (fun item => item.Key == key)).map Tag.Value := by
  cases l with
  | nil => rfl
  | cons a as =>
    cases h : (a :: as).find? (fun item => item.Key == key) with
    | none => simp [search_for_tag, h]
    | some tg => simp [search_for_tag, h]

/-- C7: `search_for_tag` returns the `Value` of the first element whose
`Key` equals the searched key; it returns `None` when the tag list is
`None`, empty, or has no matching element; a tag present with an
empty-string value is returned as `some ""`, which the callers' truthiness
tests treat exactly like an absent tag (`None`). -/
theorem C7_search_for_tag_spec (key : String) (pre post tags : List Tag) (tg : Tag) :
    search_for_tag none key = none
    ∧ search_for_tag (some []) key = none
    ∧ ((∀ u ∈ pre, u.Key ≠ key) → tg.Key = key →
        search_for_tag (some (pre ++ tg :: post)) key = some tg.Value)
    ∧ ((∀ u ∈ tags, u.Key ≠ key) → search_for_tag (some tags) key = none)
    ∧ truthyStr (some "") = truthyStr none := by
  refine ⟨rfl, rfl, ?_, ?_, rfl⟩
  · intro hpre htg
    rw [search_for_tag_eq_find]
    have hnone : pre.find? (fun item => item.Key == key) = none := by
      rw [List.find?_eq_none]
      intro u hu
      simpa using hpre u hu
    rw [List.find?_append, hnone]
    simp [List.find?_cons, htg]
  · intro htags
    rw [search_for_tag_eq_find]
    have hnone : tags.find? (fun item => item.Key == key) = none := by
      rw [List.find?_eq_none]
      intro u hu
      simpa using htags u hu
    rw [hnone]
    rfl

/-- Witness for C7: in a list whose first matching tag carries the empty
string, that empty string is returned. -/
theorem C7_search_for_tag_spec_witness :
    search_for_tag (some [⟨"env", "prod"⟩, ⟨"Name", ""⟩, ⟨"Name", "a"⟩]) "Name"
      = some "" :=
  (C7_search_for_tag_spec "Name" [⟨"env", "prod"⟩] [⟨"Name", "a"⟩] [] ⟨"Name", ""⟩).2.2.1
    (by decide) rfl

namespace CloudTrail

/-- One element of `record['requestParameters']['instancesSet']['items']`. -/
structure TrailItem where
  instanceId : String
deriving DecidableEq, Repr

/-- One CloudTrail record as parsed from the log object's `Records` list.
`eventName = none` models a record without an `eventName` key.  `json`
carries `json.dumps(record, indent=4)`, the serialized form the record was
parsed from, as data. -/
structure TrailRecord where
  eventName : Option String
  eventTime : String
  items : List TrailItem
  json : String
deriving DecidableEq, Repr

/-- One record of the triggering S3 `ObjectCreated` event: the fields
`event_record['s3']['bucket']['name']` and
`event_record['s3']['object']['key']` that the handler reads. -/
structure S3EventRecord where
  bucket : String
  key : String
deriving DecidableEq, Repr

/-- The Lambda triggering event.  `json` carries
`json.dumps(event, indent=4)` as data. -/
structure CtEvent where
  Records : List S3EventRecord
  json : String
deriving DecidableEq, Repr

/-- An EC2 instance as returned by `ec2.instances.filter`. -/
structure CtInstance where
  id : String
  tags : Option (List Tag)
deriving DecidableEq, Repr

/-- The vendor environment of `cloudtrail-watch-for-reboot.py`.
`s3GetObject` models `s3.get_object` followed by the gunzip decompression
and JSON parse of the body (returning the object's already-parsed
`Records` list); `ec2InstancesFilter` models `ec2.instances.filter` with
the constructed filters; `snsPublishResult` models `sns.publish` given
region, topic ARN and message. -/
structure CtEnv where
  s3GetObject : String → String → Except ApiError (List TrailRecord)
  ec2InstancesFilter : List Filter → Except ApiError (List CtInstance)
  snsPublishResult : String → String → String → Except ApiError Unit

/-- Lexicographic code-point comparison of character lists, the order by
which Python compares the `eventTime` strings. -/
def strLtL : List Char → List Char → Bool
  | [], [] => false
  | [], _ :: _ => true
  | _ :: _, [] => false
  | a :: as, b :: bs =>
    if a.toNat < b.toNat then true
    else if b.toNat < a.toNat then false
    else strLtL as bs

/-- Python `a < b` on strings: lexicographic by code point. -/
def pyStrLt (a b : String) : Bool := strLtL a.data b.data

/-- Stable insertion of a record into a list already sorted by `eventTime`
(equal keys keep their original relative order, as Python's stable
`sorted` does). -/
def insertByTime (r : TrailRecord) : List TrailRecord → List TrailRecord
  | [] => [r]
  | x :: xs => if pyStrLt r.eventTime x.eventTime then r :: x :: xs else x :: insertByTime r xs

/-- Stable ascending sort by `eventTime`, modelling
`sorted(records, key=lambda r: r['eventTime'])` (any stable sort by the
same key produces the same list). -/
def sortByEventTime : List TrailRecord → List TrailRecord
  | [] => []
  | x :: xs => insertByTime x (sortByEventTime xs)

/-- Embeds `get_records(session, bucket, key)`: fetch the log object,
decompress and parse it, take its `Records` list and sort it by
`eventTime`.  `ClientError` and `NoCredentialsError` are caught, logged and
converted to `SystemExit`; any other API failure propagates uncaught. -/
def get_records (env : CtEnv) (bucket key : String) :
    List Effect × Except PyExc (List TrailRecord) :=
  match env.s3GetObject bucket key with
  | .error (.clientError m) =>
      ([.api (.s3GetObject bucket key), .logError m], .error .systemExit)
  | .error (.noCredentials m) =>
      ([.api (.s3GetObject bucket key), .logError m], .error .systemExit)
  | .error (.otherError m) =>
      ([.api (.s3GetObject bucket key)], .error (.api (.otherError m)))
  | .ok records =>
      ([.api (.s3GetObject bucket key)], .ok (sortByEventTime records))

/-- Embeds the `get_log_file_location(event)` generator: the bucket/key
pairs of the event's `Records`, in order. -/
def get_log_file_location (event : CtEvent) : List S3EventRecord :=
  event.Records

/-- Splitting a character list at every colon (the behaviour of Python's
`str.split(':')` with no limit). -/
def splitOnColonAux : List Char → List Char → List (List Char)
  | [], acc => [acc.reverse]
  | c :: rest, acc =>
    if c = ':' then acc.reverse :: splitOnColonAux rest []
    else splitOnColonAux rest (c :: acc)

/-- Python `s.split(':')`. -/
def splitOnColon (s : String) : List String :=
  (splitOnColonAux s.data []).map String.mk

/-- Rejoining with colons (Python `':'.join`). -/
def joinColon : List String → String
  | [] => ""
  | [s] => s
  | s :: rest => s ++ ":" ++ joinColon rest

/-- Embeds `arn.split(':', 5)`: at most five splits, any further colons
stay inside the last element. -/
def pySplitColon5 (arn : String) : List String :=
  let parts := splitOnColon arn
  if parts.length ≤ 6 then parts
  else parts.take 5 ++ [joinColon (parts.drop 5)]

/-- The filters `get_ec2_tag` constructs. -/
def ec2TagFilters (instance_id tag_key : String) : List Filter :=
  [⟨"instance-id", [instance_id]⟩, ⟨"tag-key", [tag_key]⟩]

/-- Embeds `get_ec2_tag(session, instance_id, tag_key)`: filter instances
by instance id and tag key; when exactly one instance is returned, search
its tags, otherwise return `None` (the boto3 collection object itself is
always truthy, so the source's `if instances and len(list(instances)) == 1`
reduces to the length test).  `ClientError`/`NoCredentialsError` around the
filter are caught and converted to `SystemExit`; other failures propagate. -/
def get_ec2_tag (env : CtEnv) (instance_id tag_key : String) :
    List Effect × Except PyExc (Option String) :=
  let filters := ec2TagFilters instance_id tag_key
  match env.ec2InstancesFilter filters with
  | .error (.clientError m) =>
      ([.api (.ec2DescribeInstances filters), .logError m], .error .systemExit)
  | .error (.noCredentials m) =>
      ([.api (.ec2DescribeInstances filters), .logError m], .error .systemExit)
  | .error (.otherError m) =>
      ([.api (.ec2DescribeInstances filters)], .error (.api (.otherError m)))
  | .ok instances =>
      ([.api (.ec2DescribeInstances filters)],
       .ok (match instances with
            | [inst0] => search_for_tag inst0.tags tag_key
            | _ => none))

/-- The `region` component that `parse_arn` extracts from an ARN. -/
def arnRegion (arn : String) : String := (pySplitColon5 arn).getD 3 ""

/-- The SNS message text assembled by `main` for a rebooted instance. -/
def sns_message (event : CtEvent) (record : TrailRecord)
    (instance_id : String) (name_tag : Option String) : String :=
  "*** EC2 Instance Rebooted ***\n\nInstance ID: " ++ instance_id ++ "\n"
    ++ "Name Tag: " ++ pyStr name_tag ++ "\n\n"
    ++ "*** CloudTrail Event ***\n\n" ++ record.json ++ "\n\n"
    ++ "*** Lambda Triggering Event ***\n\n" ++ event.json ++ "\n\n"

/-- The body of `main`'s innermost loop for one `instancesSet` item: log
the reboot, look up the `alert_topic_arn` tag, and either publish one SNS
notification (region parsed from the ARN, `Name` tag fetched for the
message) or log that the tag was not found.  A topic ARN with fewer than
six colon-separated parts would raise `IndexError` inside `parse_arn`. -/
def processItem (env : CtEnv) (event : CtEvent) (record : TrailRecord)
    (record_number item_number : Nat) (instance_id : String) : Run :=
  let logRebooted : List Effect :=
    [.logInfo s!"Record {record_number}:{item_number} --> Instance {instance_id} was rebooted"]
  match get_ec2_tag env instance_id "alert_topic_arn" with
  | (es, .error exc) => (logRebooted ++ es, some exc)
  | (es, .ok topt) =>
    match topt with
    | some arn =>
      if arn = "" then
        (logRebooted ++ es
          ++ [.logInfo ("Tag \x27alert_topic_arn\x27 not found on instance " ++ instance_id)],
         none)
      else
        let logAlert : List Effect := [.logInfo s!"Alerting to SNS Topic: {arn}"]
        if 6 ≤ (pySplitColon5 arn).length then
          let sns_region := arnRegion arn
          match get_ec2_tag env instance_id "Name" with
          | (es2, .error exc) => (logRebooted ++ es ++ logAlert ++ es2, some exc)
          | (es2, .ok name_tag) =>
            let msg := sns_message event record instance_id name_tag
            match env.snsPublishResult sns_region arn msg with
            | .ok _ =>
                (logRebooted ++ es ++ logAlert ++ es2
                  ++ [.mutate (.snsPublish sns_region arn msg)], none)
            | .error e =>
                (logRebooted ++ es ++ logAlert ++ es2
                  ++ [.mutate (.snsPublish sns_region arn msg)], some (.api e))
        else (logRebooted ++ es ++ logAlert, some .indexError)
    | none =>
        (logRebooted ++ es
          ++ [.logInfo ("Tag \x27alert_topic_arn\x27 not found on instance " ++ instance_id)],
         none)

/-- The `for item_number, item in enumerate(param_items)` loop. -/
def processItems (env : CtEnv) (event : CtEvent) (record : TrailRecord)
    (record_number : Nat) : Nat → List TrailItem → Run
  | _, [] => ([], none)
  | item_number, item :: rest =>
    seqRun (processItem env event record record_number item_number item.instanceId)
      (processItems env event record record_number (item_number + 1) rest)

/-- The body of `main`'s record loop for one CloudTrail record: records
without an `eventName` key, or whose event name differs from
`RebootInstances`, are skipped. -/
def processRecord (env : CtEnv) (event : CtEvent) (record_number : Nat)
    (record : TrailRecord) : Run :=
  match record.eventName with
  | some en =>
    if en = "RebootInstances" then
      processItems env event record record_number 0 record.items
    else ([], none)
  | none => ([], none)

/-- The `for record_number, record in enumerate(records)` loop. -/
def processRecords (env : CtEnv) (event : CtEvent) : Nat → List TrailRecord → Run
  | _, [] => ([], none)
  | n, r :: rest =>
    seqRun (processRecord env event n r) (processRecords env event (n + 1) rest)

/-- The body of `main`'s outer loop for one log object referenced by the
triggering event. -/
def processObject (env : CtEnv) (event : CtEvent) (er : S3EventRecord) : Run :=
  let b := er.bucket
  let k := er.key
  let loadLog : List Effect := [.logInfo s!"Loading CloudTrail log file s3://{b}/{k}"]
  match get_records env er.bucket er.key with
  | (es, .error exc) => (loadLog ++ es, some exc)
  | (es, .ok records) =>
    let n := records.length
    seqRun (loadLog ++ es ++ [.logInfo s!"Number of records in log file: {n}"], none)
      (processRecords env event 0 records)

/-- The loop of `main` over the event's log objects. -/
def processObjects (env : CtEnv) (event : CtEvent) : List S3EventRecord → Run
  | [] => ([], none)
  | er :: rest => seqRun (processObject env event er) (processObjects env event rest)

/-- Embeds `main(event)` of `cloudtrail-watch-for-reboot.py`. -/
def main (env : CtEnv) (event : CtEvent) : Run :=
  processObjects env event (get_log_file_location event)

/-- Embeds `lambda_handler(event, context)`, which simply calls `main`. -/
def lambda_handler (env : CtEnv) (event : CtEvent) : Run :=
  main env event

/-- The tag value that a completed `get_ec2_tag` call returns, as a total
function of the environment. -/
def lookupTagTotal (env : CtEnv) (instance_id tag_key : String) : Option String :=
  match env.ec2InstancesFilter (ec2TagFilters instance_id tag_key) with
  | .ok [inst0] => search_for_tag inst0.tags tag_key
  | _ => none

/-- The parsed `Records` list of a log object, as a total function of the
environment (empty when the fetch fails). -/
def fetchedRecords (env : CtEnv) (bucket key : String) : List TrailRecord :=
  match env.s3GetObject bucket key with
  | .ok records => records
  | .error _ => []

/-- The publication the pipeline produces for one rebooted-instance item,
if any: the `alert_topic_arn` tag must be present and truthy. -/
def pipelineItem (env : CtEnv) (event : CtEvent) (r : TrailRecord)
    (it : TrailItem) : Option (String × String × String) :=
  match lookupTagTotal env it.instanceId "alert_topic_arn" with
  | some arn =>
    if arn = "" then none
    else some (arnRegion arn, arn,
      sns_message event r it.instanceId (lookupTagTotal env it.instanceId "Name"))
  | none => none

/-- Modelled from the claim's words: the pipeline exactly as C1 states it —
fetch the object, decompress, parse the JSON and take its `Records` list,
keep exactly the `RebootInstances` records, look up the `alert_topic_arn`
tag, publish one notification per rebooted instance — with no other
processing step in between (in particular, no sorting). -/
def ctPipelineAsStated (env : CtEnv) (event : CtEvent) :
    List (String × String × String) :=
  (get_log_file_location event).flatMap (fun er =>
    ((fetchedRecords env er.bucket er.key).filter
        (fun r => r.eventName == some "RebootInstances")).flatMap (fun r =>
      r.items.filterMap (pipelineItem env event r)))

/-- The pipeline with the one step the code adds: records are sorted by
`eventTime` between the parse and the event-name filter. -/
def ctPipelineSorted (env : CtEnv) (event : CtEvent) :
    List (String × String × String) :=
  (get_log_file_location event).flatMap (fun er =>
    ((sortByEventTime (fetchedRecords env er.bucket er.key)).filter
        (fun r => r.eventName == some "RebootInstances")).flatMap (fun r =>
      r.items.filterMap (pipelineItem env event r)))

theorem snsPublishes_append (a b : List Effect) :
    snsPublishes (a ++ b) = snsPublishes a ++ snsPublishes b := by
  simp [snsPublishes]

theorem snsPublishes_seqRun (x y : Run) :
    snsPublishes (seqRun x y).1
      = if x.2 = none then snsPublishes x.1 ++ snsPublishes y.1
        else snsPublishes x.1 := by
  obtain ⟨es, oe⟩ := x
  cases oe <;> simp [seqRun, snsPublishes_append]

theorem get_ec2_tag_snd_ok (env : CtEnv) (iid key : String) (es : List Effect)
    (topt : Option String) (h : get_ec2_tag env iid key = (es, Except.ok topt)) :
    topt = lookupTagTotal env iid key := by
  unfold get_ec2_tag at h
  unfold lookupTagTotal
  cases henv : env.ec2InstancesFilter (ec2TagFilters iid key) with
  | error e => cases e <;> simp [henv] at h
  | ok l =>
    simp only [henv] at h
    cases l with
    | nil => simp_all
    | cons a t =>
      cases t with
      | nil => simp_all
      | cons b u => simp_all

theorem get_ec2_tag_no_publish (env : CtEnv) (iid key : String) :
    snsPublishes (get_ec2_tag env iid key).1 = [] := by
  unfold get_ec2_tag
  cases henv : env.ec2InstancesFilter (ec2TagFilters iid key) with
  | error e => cases e <;> simp [henv, snsPublishes]
  | ok l => simp [henv, snsPublishes]

theorem processItem_publishes (env : CtEnv) (event : CtEvent)
    (record : TrailRecord) (rn inum : Nat) (it : TrailItem)
    (h : (processItem env event record rn inum it.instanceId).2 = none) :
    snsPublishes (processItem env event record rn inum it.instanceId).1
      = (pipelineItem env event record it).toList := by
  rcases hge : get_ec2_tag env it.instanceId "alert_topic_arn" with ⟨es, r⟩
  have hesp : snsPublishes es = [] := by
    have := get_ec2_tag_no_publish env it.instanceId "alert_topic_arn"
    rw [hge] at this
    exact this
  simp only [snsPublishes] at hesp
  unfold processItem at h ⊢
  rw [hge] at h ⊢
  cases r with
  | error exc => simp at h
  | ok topt =>
    have htopt : topt = lookupTagTotal env it.instanceId "alert_topic_arn" :=
      get_ec2_tag_snd_ok env it.instanceId "alert_topic_arn" es topt hge
    unfold pipelineItem
    rw [← htopt]
    dsimp only at h ⊢
    cases topt with
    | none => simp [snsPublishes_append, snsPublishes, hesp]
    | some arn =>
      rcases hge2 : get_ec2_tag env it.instanceId "Name" with ⟨es2, r2⟩
      have hesp2 : snsPublishes es2 = [] := by
        have := get_ec2_tag_no_publish env it.instanceId "Name"
        rw [hge2] at this
        exact this
      simp only [snsPublishes] at hesp2
      dsimp only at h ⊢
      by_cases harn : arn = ""
      · simp only [harn, if_pos rfl] at h ⊢
        simp [snsPublishes_append, snsPublishes, hesp]
      · simp only [if_neg harn] at h ⊢
        by_cases hlen : 6 ≤ (pySplitColon5 arn).length
        · simp only [if_pos hlen] at h ⊢
          cases r2 with
          | error exc =>
            rw [hge2] at h
            simp at h
          | ok name_tag =>
            have hname : name_tag = lookupTagTotal env it.instanceId "Name" :=
              get_ec2_tag_snd_ok env it.instanceId "Name" es2 name_tag hge2
            first
            | rw [hge2] at h
            | skip
            first
            | rw [hge2]
            | skip
            dsimp only at h ⊢
            cases hpub : env.snsPublishResult (arnRegion arn) arn
                (sns_message event record it.instanceId name_tag) with
            | error e =>
              rw [hpub] at h
              simp at h
            | ok u =>
              rw [← hname]
              simp [hpub, snsPublishes_append, snsPublishes, hesp, hesp2]
        · simp only [if_neg hlen] at h
          simp at h

theorem processItems_publishes (env : CtEnv) (event : CtEvent)
    (record : TrailRecord) (rn : Nat) (items : List TrailItem) :
    ∀ (k : Nat), (processItems env event record rn k items).2 = none →
    snsPublishes (processItems env event record rn k items).1
      = items.filterMap (pipelineItem env event record) := by
  induction items with
  | nil => intro k _; rfl
  | cons it rest ih =>
    intro k h
    rw [processItems] at h ⊢
    rw [seqRun_none_iff] at h
    obtain ⟨h1, h2⟩ := h
    rw [snsPublishes_seqRun, if_pos h1,
      processItem_publishes env event record rn k it h1, ih _ h2]
    cases hpi : pipelineItem env event record it <;>
      simp [List.filterMap_cons, hpi]

theorem processRecord_publishes (env : CtEnv) (event : CtEvent) (n : Nat)
    (record : TrailRecord)
    (h : (processRecord env event n record).2 = none) :
    snsPublishes (processRecord env event n record).1
      = if record.eventName == some "RebootInstances" then
          record.items.filterMap (pipelineItem env event record)
        else [] := by
  unfold processRecord at h ⊢
  cases hen : record.eventName with
  | none => simp [hen, snsPublishes]
  | some en =>
    by_cases he : en = "RebootInstances"
    · subst he
      first
      | rw [hen] at h
      | skip
      dsimp only at h ⊢
      rw [if_pos rfl] at h
      simp [hen, processItems_publishes env event record n record.items 0 h]
    · simp [hen, he, snsPublishes]

theorem processRecords_publishes (env : CtEnv) (event : CtEvent)
    (records : List TrailRecord) :
    ∀ (n : Nat), (processRecords env event n records).2 = none →
    snsPublishes (processRecords env event n records).1
      = (records.filter (fun r => r.eventName == some "RebootInstances")).flatMap
          (fun r => r.items.filterMap (pipelineItem env event r)) := by
  induction records with
  | nil => intro n _; rfl
  | cons r rest ih =>
    intro n h
    rw [processRecords] at h ⊢
    rw [seqRun_none_iff] at h
    obtain ⟨h1, h2⟩ := h
    rw [snsPublishes_seqRun, if_pos h1,
      processRecord_publishes env event n r h1, ih _ h2, List.filter_cons]
    by_cases hp : (r.eventName == some "RebootInstances") = true
    · simp [hp]
    · simp [hp]

theorem processObject_publishes (env : CtEnv) (event : CtEvent)
    (er : S3EventRecord)
    (h : (processObject env event er).2 = none) :
    snsPublishes (processObject env event er).1
      = ((sortByEventTime (fetchedRecords env er.bucket er.key)).filter
          (fun r => r.eventName == some "RebootInstances")).flatMap
          (fun r => r.items.filterMap (pipelineItem env event r)) := by
  unfold processObject get_records at h ⊢
  unfold fetchedRecords
  cases hs3 : env.s3GetObject er.bucket er.key with
  | error e =>
    cases e <;> simp [hs3] at h
  | ok recs =>
    simp only [hs3] at h ⊢
    rw [seqRun_none_iff] at h
    obtain ⟨-, h2⟩ := h
    rw [snsPublishes_seqRun]
    simp only [if_pos rfl]
    rw [processRecords_publishes env event (sortByEventTime recs) 0 h2]
    simp [snsPublishes]

theorem processObjects_publishes (env : CtEnv) (event : CtEvent)
    (ers : List S3EventRecord)
    (h : (processObjects env event ers).2 = none) :
    snsPublishes (processObjects env event ers).1
      = ers.flatMap (fun er =>
          ((sortByEventTime (fetchedRecords env er.bucket er.key)).filter
            (fun r => r.eventName == some "RebootInstances")).flatMap
            (fun r => r.items.filterMap (pipelineItem env event r))) := by
  induction ers with
  | nil => rfl
  | cons er rest ih =>
    rw [processObjects] at h ⊢
    rw [seqRun_none_iff] at h
    obtain ⟨h1, h2⟩ := h
    rw [snsPublishes_seqRun, if_pos h1,
      processObject_publishes env event er h1, ih h2, List.flatMap_cons]

/-- The claim C1 / C4 amended pipeline equality: on every run of `main`
that completes without an exception, the SNS publications are exactly the
sorted pipeline's output. -/
theorem main_publishes_eq_sorted_pipeline (env : CtEnv) (event : CtEvent)
    (h : (main env event).2 = none) :
    snsPublishes (main env event).1 = ctPipelineSorted env event := by
  unfold main get_log_file_location at h ⊢
  unfold ctPipelineSorted get_log_file_location
  exact processObjects_publishes env event event.Records h

theorem mem_insertByTime (r x : TrailRecord) (l : List TrailRecord)
    (h : x ∈ insertByTime r l) : x = r ∨ x ∈ l := by
  induction l with
  | nil => simpa [insertByTime] using h
  | cons a t ih =>
    rw [insertByTime] at h
    by_cases hc : pyStrLt r.eventTime a.eventTime = true
    · rw [if_pos hc] at h
      rcases List.mem_cons.mp h with h1 | h1
      · exact Or.inl h1
      · exact Or.inr h1
    · rw [if_neg hc] at h
      rcases List.mem_cons.mp h with h1 | h1
      · exact Or.inr (by simp [h1])
      · rcases ih h1 with h2 | h2
        · exact Or.inl h2
        · exact Or.inr (by simp [h2])

theorem mem_sortByEventTime (x : TrailRecord) (l : List TrailRecord)
    (h : x ∈ sortByEventTime l) : x ∈ l := by
  induction l with
  | nil => simpa [sortByEventTime] using h
  | cons a t ih =>
    rw [sortByEventTime] at h
    rcases mem_insertByTime a x (sortByEventTime t) h with h1 | h1
    · simp [h1]
    · simp [List.mem_cons, ih h1]

/-- The per-publication fact C4 needs: any publication in the trace of one
item's processing carries, as its topic, a truthy `alert_topic_arn` tag
value of that item's instance. -/
theorem processItem_mem_publishes (env : CtEnv) (event : CtEvent)
    (record : TrailRecord) (rn inum : Nat) (it : TrailItem)
    (p : String × String × String)
    (hp : p ∈ snsPublishes (processItem env event record rn inum it.instanceId).1) :
    lookupTagTotal env it.instanceId "alert_topic_arn" = some p.2.1
      ∧ p.2.1 ≠ "" := by
  rcases hge : get_ec2_tag env it.instanceId "alert_topic_arn" with ⟨es, r⟩
  have hesp : snsPublishes es = [] := by
    have := get_ec2_tag_no_publish env it.instanceId "alert_topic_arn"
    rw [hge] at this
    exact this
  simp only [snsPublishes] at hesp
  unfold processItem at hp
  rw [hge] at hp
  cases r with
  | error exc => simp [snsPublishes, hesp] at hp
  | ok topt =>
    have htopt : topt = lookupTagTotal env it.instanceId "alert_topic_arn" :=
      get_ec2_tag_snd_ok env it.instanceId "alert_topic_arn" es topt hge
    dsimp only at hp
    cases topt with
    | none => simp [snsPublishes, hesp] at hp
    | some arn =>
      rcases hge2 : get_ec2_tag env it.instanceId "Name" with ⟨es2, r2⟩
      have hesp2 : snsPublishes es2 = [] := by
        have := get_ec2_tag_no_publish env it.instanceId "Name"
        rw [hge2] at this
        exact this
      simp only [snsPublishes] at hesp2
      dsimp only at hp
      by_cases harn : arn = ""
      · simp only [harn, if_pos rfl] at hp
        simp [snsPublishes, hesp] at hp
      · simp only [if_neg harn] at hp
        by_cases hlen : 6 ≤ (pySplitColon5 arn).length
        · simp only [if_pos hlen] at hp
          first
          | rw [hge2] at hp
          | skip
          cases r2 with
          | error exc => simp [snsPublishes, hesp, hesp2] at hp
          | ok name_tag =>
            dsimp only at hp
            cases hpub : env.snsPublishResult (arnRegion arn) arn
                (sns_message event record it.instanceId name_tag) with
            | error e =>
              first
              | rw [hpub] at hp
              | skip
              simp only [snsPublishes_append] at hp
              simp [snsPublishes, hesp, hesp2, hpub] at hp
              subst hp
              exact ⟨htopt.symm, by simpa using harn⟩
            | ok u =>
              first
              | rw [hpub] at hp
              | skip
              simp only [snsPublishes_append] at hp
              simp [snsPublishes, hesp, hesp2, hpub] at hp
              subst hp
              exact ⟨htopt.symm, by simpa using harn⟩
        · simp only [if_neg hlen] at hp
          simp [snsPublishes, hesp] at hp

theorem processItems_mem_publishes (env : CtEnv) (event : CtEvent)
    (record : TrailRecord) (rn : Nat) (items : List TrailItem)
    (p : String × String × String) :
    ∀ (k : Nat), p ∈ snsPublishes (processItems env event record rn k items).1 →
    ∃ it, it ∈ items ∧
      lookupTagTotal env it.instanceId "alert_topic_arn" = some p.2.1
      ∧ p.2.1 ≠ "" := by
  induction items with
  | nil => intro k hp; simp [processItems, snsPublishes] at hp
  | cons it rest ih =>
    intro k hp
    rw [processItems, snsPublishes_seqRun] at hp
    by_cases hc : (processItem env event record rn k it.instanceId).2 = none
    · rw [if_pos hc] at hp
      rcases List.mem_append.mp hp with h1 | h1
      · exact ⟨it, by simp, processItem_mem_publishes env event record rn k it p h1⟩
      · obtain ⟨it2, hm, hrest⟩ := ih (k + 1) h1
        exact ⟨it2, by simp [hm], hrest⟩
    · rw [if_neg hc] at hp
      exact ⟨it, by simp, processItem_mem_publishes env event record rn k it p hp⟩

theorem processRecord_mem_publishes (env : CtEnv) (event : CtEvent) (n : Nat)
    (record : TrailRecord) (p : String × String × String)
    (hp : p ∈ snsPublishes (processRecord env event n record).1) :
    record.eventName = some "RebootInstances" ∧
    ∃ it, it ∈ record.items ∧
      lookupTagTotal env it.instanceId "alert_topic_arn" = some p.2.1
      ∧ p.2.1 ≠ "" := by
  unfold processRecord at hp
  cases hen : record.eventName with
  | none =>
    rw [hen] at hp
    simp [snsPublishes] at hp
  | some en =>
    rw [hen] at hp
    dsimp only at hp
    by_cases he : en = "RebootInstances"
    · subst he
      rw [if_pos rfl] at hp
      exact ⟨rfl, processItems_mem_publishes env event record n record.items p 0 hp⟩
    · rw [if_neg he] at hp
      simp [snsPublishes] at hp

theorem processRecords_mem_publishes (env : CtEnv) (event : CtEvent)
    (records : List TrailRecord) (p : String × String × String) :
    ∀ (n : Nat), p ∈ snsPublishes (processRecords env event n records).1 →
    ∃ rec, rec ∈ records ∧ rec.eventName = some "RebootInstances" ∧
    ∃ it, it ∈ rec.items ∧
      lookupTagTotal env it.instanceId "alert_topic_arn" = some p.2.1
      ∧ p.2.1 ≠ "" := by
  induction records with
  | nil => intro n hp; simp [processRecords, snsPublishes] at hp
  | cons rec rest ih =>
    intro n hp
    rw [processRecords, snsPublishes_seqRun] at hp
    by_cases hc : (processRecord env event n rec).2 = none
    · rw [if_pos hc] at hp
      rcases List.mem_append.mp hp with h1 | h1
      · obtain ⟨hev, hit⟩ := processRecord_mem_publishes env event n rec p h1
        exact ⟨rec, by simp, hev, hit⟩
      · obtain ⟨rec2, hm, hrest⟩ := ih (n + 1) h1
        exact ⟨rec2, by simp [hm], hrest⟩
    · rw [if_neg hc] at hp
      obtain ⟨hev, hit⟩ := processRecord_mem_publishes env event n rec p hp
      exact ⟨rec, by simp, hev, hit⟩

theorem get_records_no_publish (env : CtEnv) (bucket key : String) :
    snsPublishes (get_records env bucket key).1 = [] := by
  unfold get_records
  cases hs3 : env.s3GetObject bucket key with
  | error e => cases e <;> simp [hs3, snsPublishes]
  | ok recs => simp [hs3, snsPublishes]

theorem processObject_mem_publishes (env : CtEnv) (event : CtEvent)
    (er : S3EventRecord) (p : String × String × String)
    (hp : p ∈ snsPublishes (processObject env event er).1) :
    ∃ rec, rec ∈ fetchedRecords env er.bucket er.key ∧
      rec.eventName = some "RebootInstances" ∧
    ∃ it, it ∈ rec.items ∧
      lookupTagTotal env it.instanceId "alert_topic_arn" = some p.2.1
      ∧ p.2.1 ≠ "" := by
  unfold processObject get_records at hp
  unfold fetchedRecords
  cases hs3 : env.s3GetObject er.bucket er.key with
  | error e =>
    cases e <;> (rw [hs3] at hp; simp [snsPublishes] at hp)
  | ok recs =>
    rw [hs3] at hp
    dsimp only at hp
    rw [snsPublishes_seqRun] at hp
    simp only [if_pos rfl] at hp
    have hlog : snsPublishes
        ([Effect.logInfo ("Loading CloudTrail log file s3://" ++ er.bucket ++ "/" ++ er.key)]
          ++ [Effect.api (.s3GetObject er.bucket er.key)]
          ++ [Effect.logInfo ("Number of records in log file: "
              ++ toString (sortByEventTime recs).length)]) = [] := by
      simp [snsPublishes]
    rcases List.mem_append.mp hp with h1 | h1
    · simp [snsPublishes] at h1
    · obtain ⟨rec, hm, hrest⟩ :=
        processRecords_mem_publishes env event (sortByEventTime recs) p 0 h1
      exact ⟨rec, mem_sortByEventTime rec recs hm, hrest⟩

theorem processObjects_mem_publishes (env : CtEnv) (event : CtEvent)
    (ers : List S3EventRecord) (p : String × String × String)
    (hp : p ∈ snsPublishes (processObjects env event ers).1) :
    ∃ er, er ∈ ers ∧
    ∃ rec, rec ∈ fetchedRecords env er.bucket er.key ∧
      rec.eventName = some "RebootInstances" ∧
    ∃ it, it ∈ rec.items ∧
      lookupTagTotal env it.instanceId "alert_topic_arn" = some p.2.1
      ∧ p.2.1 ≠ "" := by
  induction ers with
  | nil => simp [processObjects, snsPublishes] at hp
  | cons er rest ih =>
    rw [processObjects, snsPublishes_seqRun] at hp
    by_cases hc : (processObject env event er).2 = none
    · rw [if_pos hc] at hp
      rcases List.mem_append.mp hp with h1 | h1
      · exact ⟨er, by simp, processObject_mem_publishes env event er p h1⟩
      · obtain ⟨er2, hm, hrest⟩ := ih h1
        exact ⟨er2, by simp [hm], hrest⟩
    · rw [if_neg hc] at hp
      exact ⟨er, by simp, processObject_mem_publishes env event er p hp⟩

/-- The justification C4 demands for every SNS publication: it comes from a
`RebootInstances` record of one of the event's log objects, and from an
instance whose `alert_topic_arn` tag lookup produced a truthy value equal
to the published topic. -/
def publishJustified (env : CtEnv) (event : CtEvent)
    (p : String × String × String) : Prop :=
  ∃ er, er ∈ event.Records ∧
  ∃ rec, rec ∈ fetchedRecords env er.bucket er.key ∧
    rec.eventName = some "RebootInstances" ∧
  ∃ it, it ∈ rec.items ∧
    lookupTagTotal env it.instanceId "alert_topic_arn" = some p.2.1
    ∧ p.2.1 ≠ ""

/-- C4: the CloudTrail watcher never publishes an SNS message for a record
whose `eventName` is absent or differs from `RebootInstances`, and never
publishes for a rebooted instance whose `alert_topic_arn` tag lookup
returns no (truthy) value: every publication in any run of `main` is
justified by a `RebootInstances` record and a truthy tag lookup. -/
theorem C4_no_publish_without_reboot_and_tag (env : CtEnv) (event : CtEvent)
    (p : String × String × String)
    (hp : p ∈ snsPublishes (main env event).1) :
    publishJustified env event p := by
  unfold main get_log_file_location at hp
  exact processObjects_mem_publishes env event event.Records p hp

/-- A CloudTrail record with the later `eventTime`, listed first in the log
object. -/
def recLate : TrailRecord :=
  ⟨some "RebootInstances", "2018-12-04T19:33:24Z", [⟨"i-aaa"⟩], "recLate-json"⟩

/-- A CloudTrail record with the earlier `eventTime`, listed second in the
log object. -/
def recEarly : TrailRecord :=
  ⟨some "RebootInstances", "2018-12-04T19:33:21Z", [⟨"i-bbb"⟩], "recEarly-json"⟩

/-- An instance carrying an `alert_topic_arn` tag. -/
def instA : CtInstance :=
  ⟨"i-aaa", some [⟨"alert_topic_arn", "arn:aws:sns:us-west-2:111122223333:topicA"⟩,
    ⟨"Name", "alpha"⟩]⟩

/-- A second instance carrying a different `alert_topic_arn` tag. -/
def instB : CtInstance :=
  ⟨"i-bbb", some [⟨"alert_topic_arn", "arn:aws:sns:us-west-2:111122223333:topicB"⟩,
    ⟨"Name", "beta"⟩]⟩

/-- A concrete environment whose log object holds the two reboot records
out of time order. -/
def envX : CtEnv where
  s3GetObject := fun _ _ => .ok [recLate, recEarly]
  ec2InstancesFilter := fun fs =>
    if fs = ec2TagFilters "i-aaa" "alert_topic_arn" then .ok [instA]
    else if fs = ec2TagFilters "i-aaa" "Name" then .ok [instA]
    else if fs = ec2TagFilters "i-bbb" "alert_topic_arn" then .ok [instB]
    else if fs = ec2TagFilters "i-bbb" "Name" then .ok [instB]
    else .ok []
  snsPublishResult := fun _ _ _ => .ok ()

/-- A concrete triggering event referencing one log object. -/
def eventX : CtEvent := ⟨[⟨"trail-bucket", "AWSLogs/1/log.json.gz"⟩], "eventX-json"⟩

/-- Counterexample to C1 as stated: the watcher sorts the records by
`eventTime` between the JSON parse and the event-name filter, so with two
`RebootInstances` records stored out of time order the publications come
out in sorted order, not in the order of the claimed sort-free pipeline. -/
theorem C1_pipeline_without_sort_refuted :
    snsPublishes (main envX eventX).1 ≠ ctPipelineAsStated envX eventX := by
  decide

/-- C1 (amended): on every run of `main` that completes without an
exception, each referenced log object is processed by the single linear
pipeline fetch, decompress, parse and take `Records`, sort by `eventTime`,
filter `eventName = RebootInstances`, look up `alert_topic_arn`, publish
one notification per rebooted instance with a truthy tag — and nothing
else: the publications equal the pipeline composition exactly. -/
theorem C1_watcher_linear_pipeline_with_sort (env : CtEnv) (event : CtEvent)
    (h : (main env event).2 = none) :
    snsPublishes (main env event).1 = ctPipelineSorted env event :=
  main_publishes_eq_sorted_pipeline env event h

/-- Witness for C1 at the concrete environment: the run completes and its
two publications equal the sorted pipeline's output. -/
theorem C1_watcher_linear_pipeline_with_sort_witness :
    snsPublishes (main envX eventX).1 = ctPipelineSorted envX eventX :=
  C1_watcher_linear_pipeline_with_sort envX eventX (by decide)

/-- Witness for C4: the publication that the concrete run makes for
instance `i-bbb` is justified by its reboot record and truthy tag. -/
theorem C4_no_publish_without_reboot_and_tag_witness :
    publishJustified envX eventX
      ("us-west-2", "arn:aws:sns:us-west-2:111122223333:topicB",
        sns_message eventX recEarly "i-bbb" (some "beta")) :=
  C4_no_publish_without_reboot_and_tag envX eventX
    ("us-west-2", "arn:aws:sns:us-west-2:111122223333:topicB",
      sns_message eventX recEarly "i-bbb" (some "beta")) (by decide)

end CloudTrail

theorem mutationsOf_append (a b : List Effect) :
    mutationsOf (a ++ b) = mutationsOf a ++ mutationsOf b := by
  simp [mutationsOf]

theorem printsOf_append (a b : List Effect) :
    printsOf (a ++ b) = printsOf a ++ printsOf b := by
  simp [printsOf]

theorem mutationsOf_seqRun (x y : Run) :
    mutationsOf (seqRun x y).1
      = if x.2 = none then mutationsOf x.1 ++ mutationsOf y.1
        else mutationsOf x.1 := by
  obtain ⟨es, oe⟩ := x
  cases oe <;> simp [seqRun, mutationsOf_append]

theorem printsOf_seqRun (x y : Run) :
    printsOf (seqRun x y).1
      = if x.2 = none then printsOf x.1 ++ printsOf y.1
        else printsOf x.1 := by
  obtain ⟨es, oe⟩ := x
  cases oe <;> simp [seqRun, printsOf_append]

namespace Propagate

/-- An EBS snapshot as seen through `volume.snapshots.all()`. -/
structure PSnapshot where
  id : String
  tags : Option (List Tag)
deriving DecidableEq, Repr

/-- An EBS volume as seen through `instance.volumes.all()`, together with
its snapshots. -/
structure PVolume where
  id : String
  tags : Option (List Tag)
  snapshots : List PSnapshot
deriving DecidableEq, Repr

/-- An EC2 instance as seen through `ec2.instances.filter`, together with
its volumes (the per-collection API fetches are folded into this tree). -/
structure PInstance where
  id : String
  tags : Option (List Tag)
  volumes : List PVolume
deriving DecidableEq, Repr

/-- The vendor environment of `propagate-tags.py`: the outcome of the
instance filter and the oracle for each `create_tags` mutation. -/
structure PropEnv where
  instancesResp : Except ApiError (List PInstance)
  createTags : String → String → String → Except ApiError Unit

/-- The command-line limits that shape the instance filter. -/
structure PropArgs where
  limit_vpc_id : Option String
  limit_instance_id : Option String
  limit_tag_key : Option String
deriving DecidableEq, Repr

/-- The `Filters` list the module body builds: always the state filter,
then the optional vpc/instance/tag-key limits, in source order. -/
def propFilters (a : PropArgs) : List Filter :=
  [⟨"instance-state-name", ["running", "stopped"]⟩]
    ++ (match a.limit_vpc_id with | some v => [⟨"vpc-id", [v]⟩] | none => [])
    ++ (match a.limit_instance_id with | some i => [⟨"instance-id", [i]⟩] | none => [])
    ++ (match a.limit_tag_key with | some k => [⟨"tag-key", [k]⟩] | none => [])

/-- Embeds `set_tag(resource, key, value)`: one `create_tags` call on the
resource (`str` coercions are identities here since both arguments are
already strings); a `ClientError` from the call propagates to the module
level. -/
def set_tag (env : PropEnv) (resource_id key value : String) : Run :=
  ([.mutate (.createTags resource_id key value)],
   match env.createTags resource_id key value with
   | .ok _ => none
   | .error e => some (.api e))

/-- Embeds `volume_tag_match(instance, volume, tag_key)`. -/
def volume_tag_match (inst : PInstance) (vol : PVolume) (tag_key : String) : Bool :=
  search_for_tag inst.tags tag_key == search_for_tag vol.tags tag_key

/-- Embeds `snapshot_tag_match(instance, snapshot, tag_key)`. -/
def snapshot_tag_match (inst : PInstance) (snap : PSnapshot) (tag_key : String) : Bool :=
  search_for_tag inst.tags tag_key == search_for_tag snap.tags tag_key

/-- The separator row printed between report sections. -/
def dashesRow : String :=
  "-------------------  ---------------------  ----------------------  -------------------"

/-- The header row of both reports. -/
def headerRow : String :=
  "Instance             Volume                 Snapshot                Tag Status"

/-- The per-volume report line (two spaces after the instance id,
twenty-six spaces in the empty snapshot column). -/
def volLine (inst : PInstance) (vol : PVolume) (tag_status : String) : String :=
  inst.id ++ "  " ++ vol.id ++ "                          " ++ tag_status ++ "\n"

/-- The per-snapshot report line. -/
def snapLine (inst : PInstance) (vol : PVolume) (snap : PSnapshot)
    (tag_status : String) : String :=
  inst.id ++ "  " ++ vol.id ++ "  " ++ snap.id ++ "  " ++ tag_status ++ "\n"

/-- Embeds `propagate_tag_to_volume(instance, volume, tag_key, dry_run)`:
when the values differ and this is not a dry run, `set_tag` runs before the
status line is printed (an exception from it suppresses the line). -/
def propagate_tag_to_volume (env : PropEnv) (inst : PInstance) (vol : PVolume)
    (tag_key : String) (dry_run : Bool) : Run :=
  if volume_tag_match inst vol tag_key then
    ([.printOut (volLine inst vol "Already Matches")], none)
  else
    let old_tag_value := pyOrNone (search_for_tag vol.tags tag_key)
    let new_tag_value := pyStr (search_for_tag inst.tags tag_key)
    if dry_run then
      ([.printOut (volLine inst vol
        ("Differs - Would Update (" ++ old_tag_value ++ " --> " ++ new_tag_value ++ ")"))],
       none)
    else
      seqRun (set_tag env vol.id tag_key new_tag_value)
        ([.printOut (volLine inst vol
          ("Differs - Updating (" ++ old_tag_value ++ " --> " ++ new_tag_value ++ ")"))],
         none)

/-- Embeds `propagate_tag_to_snapshot(instance, volume, snapshot, tag_key,
dry_run)`. -/
def propagate_tag_to_snapshot (env : PropEnv) (inst : PInstance) (vol : PVolume)
    (snap : PSnapshot) (tag_key : String) (dry_run : Bool) : Run :=
  if snapshot_tag_match inst snap tag_key then
    ([.printOut (snapLine inst vol snap "Already Matches")], none)
  else
    let old_tag_value := pyOrNone (search_for_tag snap.tags tag_key)
    let new_tag_value := pyStr (search_for_tag inst.tags tag_key)
    if dry_run then
      ([.printOut (snapLine inst vol snap
        ("Differs - Would Update (" ++ old_tag_value ++ " --> " ++ new_tag_value ++ ")"))],
       none)
    else
      seqRun (set_tag env snap.id tag_key new_tag_value)
        ([.printOut (snapLine inst vol snap
          ("Differs - Updating (" ++ old_tag_value ++ " --> " ++ new_tag_value ++ ")"))],
         none)

/-- The `for snapshot in snapshots` loop of `propagate_tag`. -/
def snapshotsLoop (env : PropEnv) (inst : PInstance) (vol : PVolume)
    (tag_key : String) (dry_run : Bool) : List PSnapshot → Run
  | [] => ([], none)
  | snap :: rest =>
    seqRun (propagate_tag_to_snapshot env inst vol snap tag_key dry_run)
      (snapshotsLoop env inst vol tag_key dry_run rest)

/-- The `for volume in volumes` loop of `propagate_tag`. -/
def volumesLoop (env : PropEnv) (inst : PInstance) (tag_key : String)
    (dry_run : Bool) : List PVolume → Run
  | [] => ([], none)
  | vol :: rest =>
    seqRun (propagate_tag_to_volume env inst vol tag_key dry_run)
      (seqRun (snapshotsLoop env inst vol tag_key dry_run vol.snapshots)
        (volumesLoop env inst tag_key dry_run rest))

/-- The body of `propagate_tag`'s instance loop: instances whose tag is
absent or falsy print a skip line and are not descended into. -/
def instanceBody (env : PropEnv) (inst : PInstance) (tag_key : String)
    (dry_run : Bool) : Run :=
  if truthyStr (search_for_tag inst.tags tag_key) then
    volumesLoop env inst tag_key dry_run inst.volumes
  else
    ([.printOut (inst.id ++ "  --> Tag key \x27" ++ tag_key
      ++ "\x27 not defined or has no value.  Skipping.\n")], none)

/-- The `for instance in instances` loop of `propagate_tag` (one separator
row after each instance). -/
def instancesLoop (env : PropEnv) (tag_key : String) (dry_run : Bool) :
    List PInstance → Run
  | [] => ([], none)
  | inst :: rest =>
    seqRun (instanceBody env inst tag_key dry_run)
      (seqRun ([.printOut (dashesRow ++ "\n")], none)
        (instancesLoop env tag_key dry_run rest))

/-- Embeds `propagate_tag(instances, tag_key, dry_run)`. -/
def propagate_tag (env : PropEnv) (instances : List PInstance)
    (tag_key : String) (dry_run : Bool) : Run :=
  seqRun ([.printOut (dashesRow ++ "\n"), .printOut (headerRow ++ "\n"),
      .printOut (dashesRow ++ "\n")], none)
    (instancesLoop env tag_key dry_run instances)

/-- Embeds `print_volume_tag_status(instance, volume, tag_key)`. -/
def print_volume_tag_status (inst : PInstance) (vol : PVolume)
    (tag_key : String) : Run :=
  let tag_status :=
    if truthyStr (search_for_tag inst.tags tag_key) then
      if volume_tag_match inst vol tag_key then "Match" else "Differs"
    else "Missing on Instance"
  ([.printOut (volLine inst vol tag_status)], none)

/-- Embeds `print_snapshot_tag_status(instance, volume, snapshot,
tag_key)`. -/
def print_snapshot_tag_status (inst : PInstance) (vol : PVolume)
    (snap : PSnapshot) (tag_key : String) : Run :=
  let tag_status :=
    if truthyStr (search_for_tag inst.tags tag_key) then
      if snapshot_tag_match inst snap tag_key then "Match" else "Differs"
    else "Missing on Instance"
  ([.printOut (snapLine inst vol snap tag_status)], none)

/-- The snapshot loop of `print_report`. -/
def reportSnapshotsLoop (inst : PInstance) (vol : PVolume) (tag_key : String) :
    List PSnapshot → Run
  | [] => ([], none)
  | snap :: rest =>
    seqRun (print_snapshot_tag_status inst vol snap tag_key)
      (reportSnapshotsLoop inst vol tag_key rest)

/-- The volume loop of `print_report`. -/
def reportVolumesLoop (inst : PInstance) (tag_key : String) : List PVolume → Run
  | [] => ([], none)
  | vol :: rest =>
    seqRun (print_volume_tag_status inst vol tag_key)
      (seqRun (reportSnapshotsLoop inst vol tag_key vol.snapshots)
        (reportVolumesLoop inst tag_key rest))

/-- The instance loop of `print_report`. -/
def reportInstancesLoop (tag_key : String) : List PInstance → Run
  | [] => ([], none)
  | inst :: rest =>
    seqRun (reportVolumesLoop inst tag_key inst.volumes)
      (seqRun ([.printOut (dashesRow ++ "\n")], none)
        (reportInstancesLoop tag_key rest))

/-- Embeds `print_report(instances, tag_key)`. -/
def print_report (instances : List PInstance) (tag_key : String) : Run :=
  seqRun ([.printOut (dashesRow ++ "\n"), .printOut (headerRow ++ "\n"),
      .printOut (dashesRow ++ "\n")], none)
    (reportInstancesLoop tag_key instances)

/-- The two valid dispatch modes of the module body (`--report` /
`--propagate`, mutually exclusive after argument validation). -/
inductive PropMode
  | report
  | propagate
deriving DecidableEq, Repr

/-- Embeds the `try`-guarded module body of `propagate-tags.py` (lines
286-297): issue the instance filter, dispatch on the mode, and convert a
propagating `ClientError` into the error print plus `SystemExit`. -/
def propagateTagsMain (env : PropEnv) (a : PropArgs) (mode : PropMode)
    (tag_key : String) (dry_run : Bool) : Run :=
  let body : Run :=
    match env.instancesResp with
    | .error e => ([.api (.ec2DescribeInstances (propFilters a))], some (.api e))
    | .ok insts =>
      seqRun ([.api (.ec2DescribeInstances (propFilters a))], none)
        (match mode with
         | .report => print_report insts tag_key
         | .propagate => propagate_tag env insts tag_key dry_run)
  match body with
  | (es, some (.api (.clientError m))) =>
    (es ++ [.printOut ("ERROR: Something went wrong: " ++ m ++ "\n")], some .systemExit)
  | other => other

/-- The status wording that distinguishes a dry run from a real run. -/
def statusPhrase (dry_run : Bool) : String :=
  if dry_run then "Differs - Would Update" else "Differs - Updating"

/-- The status text printed for one volume. -/
def volStatusStr (inst : PInstance) (vol : PVolume) (tag_key phrase : String) :
    String :=
  if volume_tag_match inst vol tag_key then "Already Matches"
  else phrase ++ " (" ++ pyOrNone (search_for_tag vol.tags tag_key)
    ++ " --> " ++ pyStr (search_for_tag inst.tags tag_key) ++ ")"

/-- The status text printed for one snapshot. -/
def snapStatusStr (inst : PInstance) (snap : PSnapshot) (tag_key phrase : String) :
    String :=
  if snapshot_tag_match inst snap tag_key then "Already Matches"
  else phrase ++ " (" ++ pyOrNone (search_for_tag snap.tags tag_key)
    ++ " --> " ++ pyStr (search_for_tag inst.tags tag_key) ++ ")"

/-- The mutation a real run issues for one volume: one `create_tags` when
the values differ, none otherwise. -/
def volMuts (inst : PInstance) (vol : PVolume) (tag_key : String) :
    List ApiMutation :=
  if volume_tag_match inst vol tag_key then []
  else [.createTags vol.id tag_key (pyStr (search_for_tag inst.tags tag_key))]

/-- The mutation a real run issues for one snapshot. -/
def snapMuts (inst : PInstance) (snap : PSnapshot) (tag_key : String) :
    List ApiMutation :=
  if snapshot_tag_match inst snap tag_key then []
  else [.createTags snap.id tag_key (pyStr (search_for_tag inst.tags tag_key))]

/-- The three-level nested-loop mutation list the code actually issues:
instances, then volumes, then snapshots, one individual `create_tags` per
volume or snapshot whose value differs — but only below instances whose
own tag value is truthy. -/
def codeMutations (insts : List PInstance) (tag_key : String) :
    List ApiMutation :=
  insts.flatMap (fun inst =>
    if truthyStr (search_for_tag inst.tags tag_key) then
      inst.volumes.flatMap (fun vol =>
        volMuts inst vol tag_key
          ++ vol.snapshots.flatMap (fun snap => snapMuts inst snap tag_key))
    else [])

/-- Modelled from the claim's words: one individual `create_tags` mutation
per volume or snapshot whose tag value differs from the instance's, for
every instance of the collection (no instance-level guard). -/
def claimMutations (insts : List PInstance) (tag_key : String) :
    List ApiMutation :=
  insts.flatMap (fun inst =>
    inst.volumes.flatMap (fun vol =>
      volMuts inst vol tag_key
        ++ vol.snapshots.flatMap (fun snap => snapMuts inst snap tag_key)))

/-- The per-resource report lines of `propagate_tag`, parameterized by the
differs-wording, one line per visited resource in visit order. -/
def propLines (insts : List PInstance) (tag_key phrase : String) :
    List String :=
  [dashesRow ++ "\n", headerRow ++ "\n", dashesRow ++ "\n"]
    ++ insts.flatMap (fun inst =>
      (if truthyStr (search_for_tag inst.tags tag_key) then
        inst.volumes.flatMap (fun vol =>
          [volLine inst vol (volStatusStr inst vol tag_key phrase)]
            ++ vol.snapshots.map (fun snap =>
              snapLine inst vol snap (snapStatusStr inst snap tag_key phrase)))
      else [inst.id ++ "  --> Tag key \x27" ++ tag_key
        ++ "\x27 not defined or has no value.  Skipping.\n"])
      ++ [dashesRow ++ "\n"])

theorem to_volume_char (env : PropEnv) (inst : PInstance) (vol : PVolume)
    (tag_key : String) (dry_run : Bool)
    (hok : dry_run = false → ∀ r k v, env.createTags r k v = Except.ok ()) :
    (propagate_tag_to_volume env inst vol tag_key dry_run).2 = none
    ∧ printsOf (propagate_tag_to_volume env inst vol tag_key dry_run).1
        = [volLine inst vol (volStatusStr inst vol tag_key (statusPhrase dry_run))]
    ∧ mutationsOf (propagate_tag_to_volume env inst vol tag_key dry_run).1
        = (if dry_run then [] else volMuts inst vol tag_key) := by
  unfold propagate_tag_to_volume volStatusStr volMuts
  by_cases hm : volume_tag_match inst vol tag_key
  · simp [hm, printsOf, mutationsOf]
  · cases dry_run with
    | true => simp [hm, printsOf, mutationsOf, statusPhrase]
    | false =>
      have hc := hok rfl vol.id tag_key (pyStr (search_for_tag inst.tags tag_key))
      simp [hm, set_tag, hc, seqRun, printsOf, mutationsOf, statusPhrase]

theorem to_snapshot_char (env : PropEnv) (inst : PInstance) (vol : PVolume)
    (snap : PSnapshot) (tag_key : String) (dry_run : Bool)
    (hok : dry_run = false → ∀ r k v, env.createTags r k v = Except.ok ()) :
    (propagate_tag_to_snapshot env inst vol snap tag_key dry_run).2 = none
    ∧ printsOf (propagate_tag_to_snapshot env inst vol snap tag_key dry_run).1
        = [snapLine inst vol snap (snapStatusStr inst snap tag_key (statusPhrase dry_run))]
    ∧ mutationsOf (propagate_tag_to_snapshot env inst vol snap tag_key dry_run).1
        = (if dry_run then [] else snapMuts inst snap tag_key) := by
  unfold propagate_tag_to_snapshot snapStatusStr snapMuts
  by_cases hm : snapshot_tag_match inst snap tag_key
  · simp [hm, printsOf, mutationsOf]
  · cases dry_run with
    | true => simp [hm, printsOf, mutationsOf, statusPhrase]
    | false =>
      have hc := hok rfl snap.id tag_key (pyStr (search_for_tag inst.tags tag_key))
      simp [hm, set_tag, hc, seqRun, printsOf, mutationsOf, statusPhrase]

theorem snapshotsLoop_char (env : PropEnv) (inst : PInstance) (vol : PVolume)
    (tag_key : String) (dry_run : Bool) (snaps : List PSnapshot)
    (hok : dry_run = false → ∀ r k v, env.createTags r k v = Except.ok ()) :
    (snapshotsLoop env inst vol tag_key dry_run snaps).2 = none
    ∧ printsOf (snapshotsLoop env inst vol tag_key dry_run snaps).1
        = snaps.map (fun snap =>
            snapLine inst vol snap (snapStatusStr inst snap tag_key (statusPhrase dry_run)))
    ∧ mutationsOf (snapshotsLoop env inst vol tag_key dry_run snaps).1
        = (if dry_run then []
           else snaps.flatMap (fun snap => snapMuts inst snap tag_key)) := by
  induction snaps with
  | nil =>
    refine ⟨rfl, rfl, ?_⟩
    cases dry_run <;> rfl
  | cons snap rest ih =>
    obtain ⟨ih1, ih2, ih3⟩ := ih
    obtain ⟨h1, h2, h3⟩ := to_snapshot_char env inst vol snap tag_key dry_run hok
    rw [snapshotsLoop]
    refine ⟨?_, ?_, ?_⟩
    · rw [seqRun_none_iff]
      exact ⟨h1, ih1⟩
    · rw [printsOf_seqRun, if_pos h1, h2, ih2, List.map_cons]
      rfl
    · rw [mutationsOf_seqRun, if_pos h1, h3, ih3]
      cases dry_run <;> simp

theorem volumesLoop_char (env : PropEnv) (inst : PInstance)
    (tag_key : String) (dry_run : Bool) (vols : List PVolume)
    (hok : dry_run = false → ∀ r k v, env.createTags r k v = Except.ok ()) :
    (volumesLoop env inst tag_key dry_run vols).2 = none
    ∧ printsOf (volumesLoop env inst tag_key dry_run vols).1
        = vols.flatMap (fun vol =>
            [volLine inst vol (volStatusStr inst vol tag_key (statusPhrase dry_run))]
              ++ vol.snapshots.map (fun snap =>
                snapLine inst vol snap (snapStatusStr inst snap tag_key (statusPhrase dry_run))))
    ∧ mutationsOf (volumesLoop env inst tag_key dry_run vols).1
        = (if dry_run then []
           else vols.flatMap (fun vol =>
             volMuts inst vol tag_key
               ++ vol.snapshots.flatMap (fun snap => snapMuts inst snap tag_key))) := by
  induction vols with
  | nil =>
    refine ⟨rfl, rfl, ?_⟩
    cases dry_run <;> rfl
  | cons vol rest ih =>
    obtain ⟨ih1, ih2, ih3⟩ := ih
    obtain ⟨hv1, hv2, hv3⟩ := to_volume_char env inst vol tag_key dry_run hok
    obtain ⟨hs1, hs2, hs3⟩ :=
      snapshotsLoop_char env inst vol tag_key dry_run vol.snapshots hok
    rw [volumesLoop]
    have hinner : (seqRun (snapshotsLoop env inst vol tag_key dry_run vol.snapshots)
        (volumesLoop env inst tag_key dry_run rest)).2 = none := by
      rw [seqRun_none_iff]
      exact ⟨hs1, ih1⟩
    refine ⟨?_, ?_, ?_⟩
    · rw [seqRun_none_iff]
      exact ⟨hv1, hinner⟩
    · rw [printsOf_seqRun, if_pos hv1, printsOf_seqRun, if_pos hs1,
        hv2, hs2, ih2, List.flatMap_cons]
      simp
    · rw [mutationsOf_seqRun, if_pos hv1, mutationsOf_seqRun, if_pos hs1,
        hv3, hs3, ih3]
      cases dry_run <;> simp

theorem instanceBody_char (env : PropEnv) (inst : PInstance)
    (tag_key : String) (dry_run : Bool)
    (hok : dry_run = false → ∀ r k v, env.createTags r k v = Except.ok ()) :
    (instanceBody env inst tag_key dry_run).2 = none
    ∧ printsOf (instanceBody env inst tag_key dry_run).1
        = (if truthyStr (search_for_tag inst.tags tag_key) then
            inst.volumes.flatMap (fun vol =>
              [volLine inst vol (volStatusStr inst vol tag_key (statusPhrase dry_run))]
                ++ vol.snapshots.map (fun snap =>
                  snapLine inst vol snap (snapStatusStr inst snap tag_key (statusPhrase dry_run))))
          else [inst.id ++ "  --> Tag key \x27" ++ tag_key
            ++ "\x27 not defined or has no value.  Skipping.\n"])
    ∧ mutationsOf (instanceBody env inst tag_key dry_run).1
        = (if dry_run then []
           else if truthyStr (search_for_tag inst.tags tag_key) then
             inst.volumes.flatMap (fun vol =>
               volMuts inst vol tag_key
                 ++ vol.snapshots.flatMap (fun snap => snapMuts inst snap tag_key))
           else []) := by
  obtain ⟨h1, h2, h3⟩ := volumesLoop_char env inst tag_key dry_run inst.volumes hok
  cases ht : truthyStr (search_for_tag inst.tags tag_key) with
  | true =>
    refine ⟨?_, ?_, ?_⟩
    · simpa [instanceBody, ht] using h1
    · simpa [instanceBody, ht] using h2
    · cases dry_run with
      | true => simpa [instanceBody, ht] using h3
      | false => simpa [instanceBody, ht] using h3
  | false =>
    refine ⟨?_, ?_, ?_⟩
    · simp [instanceBody, ht]
    · simp [instanceBody, ht, printsOf]
    · cases dry_run <;> simp [instanceBody, ht, mutationsOf]

theorem instancesLoop_char (env : PropEnv) (tag_key : String) (dry_run : Bool)
    (insts : List PInstance)
    (hok : dry_run = false → ∀ r k v, env.createTags r k v = Except.ok ()) :
    (instancesLoop env tag_key dry_run insts).2 = none
    ∧ printsOf (instancesLoop env tag_key dry_run insts).1
        = insts.flatMap (fun inst =>
            (if truthyStr (search_for_tag inst.tags tag_key) then
              inst.volumes.flatMap (fun vol =>
                [volLine inst vol (volStatusStr inst vol tag_key (statusPhrase dry_run))]
                  ++ vol.snapshots.map (fun snap =>
                    snapLine inst vol snap (snapStatusStr inst snap tag_key (statusPhrase dry_run))))
            else [inst.id ++ "  --> Tag key \x27" ++ tag_key
              ++ "\x27 not defined or has no value.  Skipping.\n"])
            ++ [dashesRow ++ "\n"])
    ∧ mutationsOf (instancesLoop env tag_key dry_run insts).1
        = (if dry_run then [] else codeMutations insts tag_key) := by
  induction insts with
  | nil =>
    refine ⟨rfl, rfl, ?_⟩
    cases dry_run <;> rfl
  | cons inst rest ih =>
    obtain ⟨ih1, ih2, ih3⟩ := ih
    obtain ⟨hb1, hb2, hb3⟩ := instanceBody_char env inst tag_key dry_run hok
    rw [instancesLoop]
    have hinner : (seqRun (([.printOut (dashesRow ++ "\n")], none) : Run)
        (instancesLoop env tag_key dry_run rest)).2 = none := by
      rw [seqRun_none_iff]
      exact ⟨rfl, ih1⟩
    refine ⟨?_, ?_, ?_⟩
    · rw [seqRun_none_iff]
      exact ⟨hb1, hinner⟩
    · rw [printsOf_seqRun, if_pos hb1, printsOf_seqRun, if_pos rfl,
        hb2, ih2, List.flatMap_cons]
      simp [printsOf]
    · rw [mutationsOf_seqRun, if_pos hb1, mutationsOf_seqRun, if_pos rfl,
        hb3, ih3]
      cases dry_run with
      | true => simp [mutationsOf]
      | false => simp [mutationsOf, codeMutations]

theorem propagate_tag_char (env : PropEnv) (insts : List PInstance)
    (tag_key : String) (dry_run : Bool)
    (hok : dry_run = false → ∀ r k v, env.createTags r k v = Except.ok ()) :
    (propagate_tag env insts tag_key dry_run).2 = none
    ∧ printsOf (propagate_tag env insts tag_key dry_run).1
        = propLines insts tag_key (statusPhrase dry_run)
    ∧ mutationsOf (propagate_tag env insts tag_key dry_run).1
        = (if dry_run then [] else codeMutations insts tag_key) := by
  obtain ⟨h1, h2, h3⟩ := instancesLoop_char env tag_key dry_run insts hok
  unfold propagate_tag propLines
  refine ⟨?_, ?_, ?_⟩
  · rw [seqRun_none_iff]
    exact ⟨rfl, h1⟩
  · rw [printsOf_seqRun, if_pos rfl, h2]
    simp [printsOf]
  · rw [mutationsOf_seqRun, if_pos rfl, h3]
    cases dry_run <;> simp [mutationsOf]

/-- An instance without the propagated tag whose volume carries a
differing value: the claim's per-differing-resource mutation rule demands
a mutation here, the code skips the instance entirely. -/
def instNoTag : PInstance :=
  ⟨"i-0notag", none, [⟨"vol-0a", some [⟨"AppName", "x"⟩], []⟩]⟩

/-- An instance with a truthy tag whose volume and snapshot both differ. -/
def instDiff : PInstance :=
  ⟨"i-0diff", some [⟨"AppName", "new"⟩],
    [⟨"vol-0b", some [⟨"AppName", "old"⟩],
      [⟨"snap-0b", some [⟨"AppName", "old"⟩]⟩]⟩]⟩

/-- A concrete environment whose `create_tags` oracle always succeeds. -/
def envP : PropEnv := ⟨Except.ok [instNoTag, instDiff], fun _ _ _ => Except.ok ()⟩

/-- Counterexample to C2 as stated: `instNoTag` has no tag value while its
volume carries one, so the values differ, yet `propagate_tag` issues no
mutation for that volume — the instance-level truthiness guard skips the
whole instance. -/
theorem C2_mutation_per_differing_resource_refuted :
    mutationsOf (propagate_tag envP [instNoTag, instDiff] "AppName" false).1
      ≠ claimMutations [instNoTag, instDiff] "AppName" := by
  decide

/-- C2 (amended): with a succeeding `create_tags` oracle, `propagate_tag`'s
mutations are exactly the three-level nested loop — instances, volumes,
snapshots — comparing tag values by direct equality and issuing one
individual `create_tags` per volume or snapshot whose value differs, for
the instances whose own tag value is present and truthy; instances with an
absent or empty tag value are skipped entirely.  No state is kept across
iterations and no call is retried: the mutation list is a pure `flatMap`
over the collections. -/
theorem C2_propagate_nested_loops (env : PropEnv) (insts : List PInstance)
    (tag_key : String)
    (hok : ∀ r k v, env.createTags r k v = Except.ok ()) :
    mutationsOf (propagate_tag env insts tag_key false).1
      = codeMutations insts tag_key := by
  have h := (propagate_tag_char env insts tag_key false (fun _ => hok)).2.2
  simpa using h

/-- Witness for C2 at the concrete environment. -/
theorem C2_propagate_nested_loops_witness :
    mutationsOf (propagate_tag envP [instNoTag, instDiff] "AppName" false).1
      = codeMutations [instNoTag, instDiff] "AppName" :=
  C2_propagate_nested_loops envP [instNoTag, instDiff] "AppName" (fun _ _ _ => rfl)

end Propagate

/-- The API read calls contained in an effect trace, in order. -/
def apiCallsOf (es : List Effect) : List ApiCall :=
  es.filterMap (fun e => match e with
    | .api c => some c
    | _ => none)

theorem apiCallsOf_append (a b : List Effect) :
    apiCallsOf (a ++ b) = apiCallsOf a ++ apiCallsOf b := by
  simp [apiCallsOf]

theorem apiCallsOf_seqRun (x y : Run) :
    apiCallsOf (seqRun x y).1
      = if x.2 = none then apiCallsOf x.1 ++ apiCallsOf y.1
        else apiCallsOf x.1 := by
  obtain ⟨es, oe⟩ := x
  cases oe <;> simp [seqRun, apiCallsOf_append]

theorem apiCallsOf_seq_both (x y : Run)
    (hx : apiCallsOf x.1 = []) (hy : apiCallsOf y.1 = []) :
    apiCallsOf (seqRun x y).1 = [] := by
  rw [apiCallsOf_seqRun]
  by_cases h : x.2 = none <;> simp [h, hx, hy]

namespace DeleteTag

/-- An instance dictionary of a `describe_instances` reservation; the
script reads `InstanceId` and `Tags`. -/
structure DTInstance where
  InstanceId : String
  Tags : List Tag
deriving DecidableEq, Repr

/-- A volume dictionary of a `describe_volumes` response. -/
structure DTVolume where
  VolumeId : String
  Tags : List Tag
deriving DecidableEq, Repr

/-- A snapshot dictionary of a `describe_snapshots` response. -/
structure DTSnapshot where
  SnapshotId : String
  Tags : List Tag
deriving DecidableEq, Repr

/-- A `describe_instances` response page: the reservations (each with its
`Instances`) plus the `NextToken` continuation marker, which the script
never reads. -/
structure InstancesResponse where
  Reservations : List (List DTInstance)
  NextToken : Option String
deriving DecidableEq, Repr

/-- A `describe_volumes` response page. -/
structure VolumesResponse where
  Volumes : List DTVolume
  NextToken : Option String
deriving DecidableEq, Repr

/-- A `describe_snapshots` response page. -/
structure SnapshotsResponse where
  Snapshots : List DTSnapshot
  NextToken : Option String
deriving DecidableEq, Repr

/-- The vendor environment of `delete-tag.py`. -/
structure DelEnv where
  describeInstances : List Filter → Except ApiError InstancesResponse
  describeVolumes : List Filter → Except ApiError VolumesResponse
  describeSnapshots : List Filter → Except ApiError SnapshotsResponse
  deleteTags : String → String → Except ApiError Unit

/-- The parsed command-line flags of `delete-tag.py` after validation
(`--tag` present, exactly one of `--report`/`--delete`). -/
structure DelArgs where
  limit_instance_id : Option String
  tag_key : String
  report : Bool
  delete : Bool
  dry_run : Bool
deriving DecidableEq, Repr

/-- The instance filters: state, optional instance-id limit, tag key, in
append order. -/
def instance_filters (a : DelArgs) : List Filter :=
  [⟨"instance-state-name", ["running", "stopped"]⟩]
    ++ (match a.limit_instance_id with
        | some i => [⟨"instance-id", [i]⟩]
        | none => [])
    ++ [⟨"tag-key", [a.tag_key]⟩]

/-- The volume filters: optional attachment limit, tag key. -/
def volume_filters (a : DelArgs) : List Filter :=
  (match a.limit_instance_id with
   | some i => [⟨"attachment.instance-id", [i]⟩]
   | none => [])
    ++ [⟨"tag-key", [a.tag_key]⟩]

/-- The snapshot filters: tag key only (`OwnerIds=['self']` is a fixed
extra argument). -/
def snapshot_filters (a : DelArgs) : List Filter :=
  [⟨"tag-key", [a.tag_key]⟩]

/-- The per-resource body shared by the three phases: print the id and the
tag value without newlines; when `delete and not dry_run`, issue one
`delete_tags` call and print the deletion suffix, otherwise print the
bare newline. -/
def resourceLines (env : DelEnv) (a : DelArgs) (rid : String) (tags : List Tag) : Run :=
  seqRun
    ([.printOut (rid ++ ": "),
      .printOut (a.tag_key ++ " = " ++ pyStr (search_for_tag (some tags) a.tag_key))],
     none)
    (if a.delete && !a.dry_run then
      seqRun
        ([.mutate (.deleteTags rid a.tag_key)],
         match env.deleteTags rid a.tag_key with
         | .ok _ => none
         | .error e => some (.api e))
        ([.printOut (" (Deleted tag \x27" ++ a.tag_key ++ "\x27)\n")], none)
    else ([.printOut "\n"], none))

/-- The `for instance in reservation['Instances']` loop. -/
def instanceItemsLoop (env : DelEnv) (a : DelArgs) : List DTInstance → Run
  | [] => ([], none)
  | i :: rest =>
    seqRun (resourceLines env a i.InstanceId i.Tags) (instanceItemsLoop env a rest)

/-- The `for reservation in response['Reservations']` loop. -/
def reservationsLoop (env : DelEnv) (a : DelArgs) : List (List DTInstance) → Run
  | [] => ([], none)
  | r :: rest =>
    seqRun (instanceItemsLoop env a r) (reservationsLoop env a rest)

/-- The `for volume in volume_response['Volumes']` loop. -/
def volumeItemsLoop (env : DelEnv) (a : DelArgs) : List DTVolume → Run
  | [] => ([], none)
  | v :: rest =>
    seqRun (resourceLines env a v.VolumeId v.Tags) (volumeItemsLoop env a rest)

/-- The `for snapshot in snapshot_response['Snapshots']` loop. -/
def snapshotItemsLoop (env : DelEnv) (a : DelArgs) : List DTSnapshot → Run
  | [] => ([], none)
  | s :: rest =>
    seqRun (resourceLines env a s.SnapshotId s.Tags) (snapshotItemsLoop env a rest)

/-- The snapshot phase: one `describe_snapshots` call, then its items. -/
def snapshotsPhase (env : DelEnv) (a : DelArgs) : Run :=
  match env.describeSnapshots (snapshot_filters a) with
  | .error e => ([.api (.ec2DescribeSnapshots (snapshot_filters a))], some (.api e))
  | .ok resp =>
    seqRun ([.api (.ec2DescribeSnapshots (snapshot_filters a))], none)
      (snapshotItemsLoop env a resp.Snapshots)

/-- The volume phase followed by the snapshot phase. -/
def volumesPhase (env : DelEnv) (a : DelArgs) : Run :=
  match env.describeVolumes (volume_filters a) with
  | .error e => ([.api (.ec2DescribeVolumes (volume_filters a))], some (.api e))
  | .ok resp =>
    seqRun ([.api (.ec2DescribeVolumes (volume_filters a))], none)
      (seqRun (volumeItemsLoop env a resp.Volumes) (snapshotsPhase env a))

/-- The `try` body of `delete-tag.py`: the three describe/process phases
in order. -/
def deleteTagBody (env : DelEnv) (a : DelArgs) : Run :=
  match env.describeInstances (instance_filters a) with
  | .error e => ([.api (.ec2DescribeInstances (instance_filters a))], some (.api e))
  | .ok resp =>
    seqRun ([.api (.ec2DescribeInstances (instance_filters a))], none)
      (seqRun (reservationsLoop env a resp.Reservations) (volumesPhase env a))

/-- Embeds the module body of `delete-tag.py` with its `except ClientError`
handler (error print plus `SystemExit`); other exceptions propagate. -/
def deleteTagMain (env : DelEnv) (a : DelArgs) : Run :=
  match deleteTagBody env a with
  | (es, some (.api (.clientError m))) =>
    (es ++ [.printOut ("\nERROR: " ++ m ++ "\n")], some .systemExit)
  | other => other

theorem resourceLines_noMut (env : DelEnv) (a : DelArgs) (rid : String)
    (tags : List Tag) (hf : (a.delete && !a.dry_run) = false) :
    resourceLines env a rid tags
      = ([.printOut (rid ++ ": "),
          .printOut (a.tag_key ++ " = " ++ pyStr (search_for_tag (some tags) a.tag_key)),
          .printOut "\n"], none) := by
  unfold resourceLines
  rw [hf]
  simp [seqRun]

theorem resourceLines_congr (env : DelEnv) (a1 a2 : DelArgs) (rid : String)
    (tags : List Tag) (hk : a1.tag_key = a2.tag_key)
    (h1 : (a1.delete && !a1.dry_run) = false)
    (h2 : (a2.delete && !a2.dry_run) = false) :
    resourceLines env a1 rid tags = resourceLines env a2 rid tags := by
  rw [resourceLines_noMut env a1 rid tags h1, resourceLines_noMut env a2 rid tags h2, hk]

theorem instanceItemsLoop_congr (env : DelEnv) (a1 a2 : DelArgs)
    (hk : a1.tag_key = a2.tag_key)
    (h1 : (a1.delete && !a1.dry_run) = false)
    (h2 : (a2.delete && !a2.dry_run) = false) :
    ∀ l, instanceItemsLoop env a1 l = instanceItemsLoop env a2 l := by
  intro l
  induction l with
  | nil => rfl
  | cons i rest ih =>
    rw [instanceItemsLoop, instanceItemsLoop,
      resourceLines_congr env a1 a2 i.InstanceId i.Tags hk h1 h2, ih]

theorem reservationsLoop_congr (env : DelEnv) (a1 a2 : DelArgs)
    (hk : a1.tag_key = a2.tag_key)
    (h1 : (a1.delete && !a1.dry_run) = false)
    (h2 : (a2.delete && !a2.dry_run) = false) :
    ∀ l, reservationsLoop env a1 l = reservationsLoop env a2 l := by
  intro l
  induction l with
  | nil => rfl
  | cons r rest ih =>
    rw [reservationsLoop, reservationsLoop,
      instanceItemsLoop_congr env a1 a2 hk h1 h2 r, ih]

theorem volumeItemsLoop_congr (env : DelEnv) (a1 a2 : DelArgs)
    (hk : a1.tag_key = a2.tag_key)
    (h1 : (a1.delete && !a1.dry_run) = false)
    (h2 : (a2.delete && !a2.dry_run) = false) :
    ∀ l, volumeItemsLoop env a1 l = volumeItemsLoop env a2 l := by
  intro l
  induction l with
  | nil => rfl
  | cons v rest ih =>
    rw [volumeItemsLoop, volumeItemsLoop,
      resourceLines_congr env a1 a2 v.VolumeId v.Tags hk h1 h2, ih]

theorem snapshotItemsLoop_congr (env : DelEnv) (a1 a2 : DelArgs)
    (hk : a1.tag_key = a2.tag_key)
    (h1 : (a1.delete && !a1.dry_run) = false)
    (h2 : (a2.delete && !a2.dry_run) = false) :
    ∀ l, snapshotItemsLoop env a1 l = snapshotItemsLoop env a2 l := by
  intro l
  induction l with
  | nil => rfl
  | cons s rest ih =>
    rw [snapshotItemsLoop, snapshotItemsLoop,
      resourceLines_congr env a1 a2 s.SnapshotId s.Tags hk h1 h2, ih]

theorem deleteTagMain_congr (env : DelEnv) (a1 a2 : DelArgs)
    (hlim : a1.limit_instance_id = a2.limit_instance_id)
    (hk : a1.tag_key = a2.tag_key)
    (h1 : (a1.delete && !a1.dry_run) = false)
    (h2 : (a2.delete && !a2.dry_run) = false) :
    deleteTagMain env a1 = deleteTagMain env a2 := by
  have hfi : instance_filters a1 = instance_filters a2 := by
    unfold instance_filters
    rw [hlim, hk]
  have hfv : volume_filters a1 = volume_filters a2 := by
    unfold volume_filters
    rw [hlim, hk]
  have hfs : snapshot_filters a1 = snapshot_filters a2 := by
    unfold snapshot_filters
    rw [hk]
  have hsnap : snapshotsPhase env a1 = snapshotsPhase env a2 := by
    unfold snapshotsPhase
    rw [hfs]
    cases env.describeSnapshots (snapshot_filters a2) with
    | error e => rfl
    | ok resp =>
      dsimp only
      rw [snapshotItemsLoop_congr env a1 a2 hk h1 h2 resp.Snapshots]
  have hvol : volumesPhase env a1 = volumesPhase env a2 := by
    unfold volumesPhase
    rw [hfv]
    cases env.describeVolumes (volume_filters a2) with
    | error e => rfl
    | ok resp =>
      dsimp only
      rw [volumeItemsLoop_congr env a1 a2 hk h1 h2 resp.Volumes, hsnap]
  unfold deleteTagMain deleteTagBody
  rw [hfi]
  cases env.describeInstances (instance_filters a2) with
  | error e => rfl
  | ok resp =>
    dsimp only
    rw [reservationsLoop_congr env a1 a2 hk h1 h2 resp.Reservations, hvol]

theorem mutationsOf_resourceLines (env : DelEnv) (a : DelArgs) (rid : String)
    (tags : List Tag) :
    mutationsOf (resourceLines env a rid tags).1
      = (if a.delete && !a.dry_run then [ApiMutation.deleteTags rid a.tag_key] else []) := by
  unfold resourceLines
  cases hf : (a.delete && !a.dry_run) with
  | false => simp [seqRun, mutationsOf]
  | true =>
    cases hdel : env.deleteTags rid a.tag_key <;>
      simp [seqRun, mutationsOf, hdel]

theorem mutationsOf_seq_le (x y : Run)
    (hx : mutationsOf x.1 = []) (hy : mutationsOf y.1 = []) :
    mutationsOf (seqRun x y).1 = [] := by
  rw [mutationsOf_seqRun]
  by_cases h : x.2 = none <;> simp [h, hx, hy]

theorem deleteTag_noMut (env : DelEnv) (a : DelArgs)
    (hf : (a.delete && !a.dry_run) = false) :
    mutationsOf (deleteTagMain env a).1 = [] := by
  have hres : ∀ rid tags, mutationsOf (resourceLines env a rid tags).1 = [] := by
    intro rid tags
    rw [mutationsOf_resourceLines, hf]
    rfl
  have hinst : ∀ l, mutationsOf (instanceItemsLoop env a l).1 = [] := by
    intro l
    induction l with
    | nil => rfl
    | cons i rest ih => rw [instanceItemsLoop]; exact mutationsOf_seq_le _ _ (hres _ _) ih
  have hresv : ∀ l, mutationsOf (reservationsLoop env a l).1 = [] := by
    intro l
    induction l with
    | nil => rfl
    | cons r rest ih => rw [reservationsLoop]; exact mutationsOf_seq_le _ _ (hinst r) ih
  have hvoll : ∀ l, mutationsOf (volumeItemsLoop env a l).1 = [] := by
    intro l
    induction l with
    | nil => rfl
    | cons v rest ih => rw [volumeItemsLoop]; exact mutationsOf_seq_le _ _ (hres _ _) ih
  have hsnapl : ∀ l, mutationsOf (snapshotItemsLoop env a l).1 = [] := by
    intro l
    induction l with
    | nil => rfl
    | cons s rest ih => rw [snapshotItemsLoop]; exact mutationsOf_seq_le _ _ (hres _ _) ih
  have hsnapPh : mutationsOf (snapshotsPhase env a).1 = [] := by
    unfold snapshotsPhase
    cases env.describeSnapshots (snapshot_filters a) with
    | error e => simp [mutationsOf]
    | ok resp =>
      exact mutationsOf_seq_le _ _ (by simp [mutationsOf]) (hsnapl resp.Snapshots)
  have hvolPh : mutationsOf (volumesPhase env a).1 = [] := by
    unfold volumesPhase
    cases env.describeVolumes (volume_filters a) with
    | error e => simp [mutationsOf]
    | ok resp =>
      exact mutationsOf_seq_le _ _ (by simp [mutationsOf])
        (mutationsOf_seq_le _ _ (hvoll resp.Volumes) hsnapPh)
  have hbody : mutationsOf (deleteTagBody env a).1 = [] := by
    unfold deleteTagBody
    cases env.describeInstances (instance_filters a) with
    | error e => simp [mutationsOf]
    | ok resp =>
      exact mutationsOf_seq_le _ _ (by simp [mutationsOf])
        (mutationsOf_seq_le _ _ (hresv resp.Reservations) hvolPh)
  unfold deleteTagMain
  rcases hb : deleteTagBody env a with ⟨es, oe⟩
  have hes : mutationsOf es = [] := by
    have := hbody
    rw [hb] at this
    exact this
  match oe with
  | none => simpa using hes
  | some (.api (.clientError m)) =>
    rw [mutationsOf_append, hes]
    simp [mutationsOf]
  | some (.api (.noCredentials m)) => simpa using hes
  | some (.api (.otherError m)) => simpa using hes
  | some .indexError => simpa using hes
  | some .nameError => simpa using hes
  | some .systemExit => simpa using hes

theorem apiCallsOf_resourceLines (env : DelEnv) (a : DelArgs) (rid : String)
    (tags : List Tag) : apiCallsOf (resourceLines env a rid tags).1 = [] := by
  unfold resourceLines
  cases hf : (a.delete && !a.dry_run) with
  | false => simp [seqRun, apiCallsOf]
  | true =>
    cases hdel : env.deleteTags rid a.tag_key <;>
      simp [seqRun, apiCallsOf, hdel]

theorem resourceLines_ok (env : DelEnv) (a : DelArgs) (rid : String)
    (tags : List Tag) (hd : ∀ r k, env.deleteTags r k = Except.ok ()) :
    (resourceLines env a rid tags).2 = none := by
  unfold resourceLines
  cases hf : (a.delete && !a.dry_run) with
  | false => simp [seqRun]
  | true => simp [seqRun, hd]

theorem instanceItemsLoop_char (env : DelEnv) (a : DelArgs)
    (hd : ∀ r k, env.deleteTags r k = Except.ok ()) :
    ∀ l, (instanceItemsLoop env a l).2 = none
      ∧ apiCallsOf (instanceItemsLoop env a l).1 = [] := by
  intro l
  induction l with
  | nil => exact ⟨rfl, rfl⟩
  | cons i rest ih =>
    rw [instanceItemsLoop]
    refine ⟨?_, apiCallsOf_seq_both _ _ (apiCallsOf_resourceLines env a _ _) ih.2⟩
    rw [seqRun_none_iff]
    exact ⟨resourceLines_ok env a _ _ hd, ih.1⟩

theorem reservationsLoop_char (env : DelEnv) (a : DelArgs)
    (hd : ∀ r k, env.deleteTags r k = Except.ok ()) :
    ∀ l, (reservationsLoop env a l).2 = none
      ∧ apiCallsOf (reservationsLoop env a l).1 = [] := by
  intro l
  induction l with
  | nil => exact ⟨rfl, rfl⟩
  | cons r rest ih =>
    rw [reservationsLoop]
    refine ⟨?_, apiCallsOf_seq_both _ _ (instanceItemsLoop_char env a hd r).2 ih.2⟩
    rw [seqRun_none_iff]
    exact ⟨(instanceItemsLoop_char env a hd r).1, ih.1⟩

theorem volumeItemsLoop_char (env : DelEnv) (a : DelArgs)
    (hd : ∀ r k, env.deleteTags r k = Except.ok ()) :
    ∀ l, (volumeItemsLoop env a l).2 = none
      ∧ apiCallsOf (volumeItemsLoop env a l).1 = [] := by
  intro l
  induction l with
  | nil => exact ⟨rfl, rfl⟩
  | cons v rest ih =>
    rw [volumeItemsLoop]
    refine ⟨?_, apiCallsOf_seq_both _ _ (apiCallsOf_resourceLines env a _ _) ih.2⟩
    rw [seqRun_none_iff]
    exact ⟨resourceLines_ok env a _ _ hd, ih.1⟩

theorem snapshotItemsLoop_char (env : DelEnv) (a : DelArgs)
    (hd : ∀ r k, env.deleteTags r k = Except.ok ()) :
    ∀ l, (snapshotItemsLoop env a l).2 = none
      ∧ apiCallsOf (snapshotItemsLoop env a l).1 = [] := by
  intro l
  induction l with
  | nil => exact ⟨rfl, rfl⟩
  | cons v rest ih =>
    rw [snapshotItemsLoop]
    refine ⟨?_, apiCallsOf_seq_both _ _ (apiCallsOf_resourceLines env a _ _) ih.2⟩
    rw [seqRun_none_iff]
    exact ⟨resourceLines_ok env a _ _ hd, ih.1⟩

/-- Under successful oracles, the whole of `delete-tag.py` issues exactly
one `describe_instances`, one `describe_volumes` and one
`describe_snapshots` call, in that order, and nothing else. -/
theorem deleteTag_apiCalls (env : DelEnv) (a : DelArgs)
    (ri : InstancesResponse) (rv : VolumesResponse) (rs : SnapshotsResponse)
    (hd : ∀ r k, env.deleteTags r k = Except.ok ())
    (hri : env.describeInstances (instance_filters a) = Except.ok ri)
    (hrv : env.describeVolumes (volume_filters a) = Except.ok rv)
    (hrs : env.describeSnapshots (snapshot_filters a) = Except.ok rs) :
    apiCallsOf (deleteTagMain env a).1
      = [.ec2DescribeInstances (instance_filters a),
         .ec2DescribeVolumes (volume_filters a),
         .ec2DescribeSnapshots (snapshot_filters a)]
      ∧ (deleteTagMain env a).2 = none := by
  have hsnap : (snapshotsPhase env a).2 = none
      ∧ apiCallsOf (snapshotsPhase env a).1
        = [.ec2DescribeSnapshots (snapshot_filters a)] := by
    unfold snapshotsPhase
    rw [hrs]
    dsimp only
    constructor
    · rw [seqRun_none_iff]
      exact ⟨rfl, (snapshotItemsLoop_char env a hd rs.Snapshots).1⟩
    · rw [apiCallsOf_seqRun, if_pos rfl, (snapshotItemsLoop_char env a hd rs.Snapshots).2]
      simp [apiCallsOf]
  have hvol : (volumesPhase env a).2 = none
      ∧ apiCallsOf (volumesPhase env a).1
        = [.ec2DescribeVolumes (volume_filters a),
           .ec2DescribeSnapshots (snapshot_filters a)] := by
    unfold volumesPhase
    rw [hrv]
    dsimp only
    have hin : (seqRun (volumeItemsLoop env a rv.Volumes) (snapshotsPhase env a)).2 = none := by
      rw [seqRun_none_iff]
      exact ⟨(volumeItemsLoop_char env a hd rv.Volumes).1, hsnap.1⟩
    constructor
    · rw [seqRun_none_iff]
      exact ⟨rfl, hin⟩
    · rw [apiCallsOf_seqRun, if_pos rfl, apiCallsOf_seqRun,
        if_pos (volumeItemsLoop_char env a hd rv.Volumes).1,
        (volumeItemsLoop_char env a hd rv.Volumes).2, hsnap.2]
      simp [apiCallsOf]
  have hbody : (deleteTagBody env a).2 = none
      ∧ apiCallsOf (deleteTagBody env a).1
        = [.ec2DescribeInstances (instance_filters a),
           .ec2DescribeVolumes (volume_filters a),
           .ec2DescribeSnapshots (snapshot_filters a)] := by
    unfold deleteTagBody
    rw [hri]
    dsimp only
    have hin : (seqRun (reservationsLoop env a ri.Reservations) (volumesPhase env a)).2 = none := by
      rw [seqRun_none_iff]
      exact ⟨(reservationsLoop_char env a hd ri.Reservations).1, hvol.1⟩
    constructor
    · rw [seqRun_none_iff]
      exact ⟨rfl, hin⟩
    · rw [apiCallsOf_seqRun, if_pos rfl, apiCallsOf_seqRun,
        if_pos (reservationsLoop_char env a hd ri.Reservations).1,
        (reservationsLoop_char env a hd ri.Reservations).2, hvol.2]
      simp [apiCallsOf]
  unfold deleteTagMain
  rcases hb : deleteTagBody env a with ⟨es, oe⟩
  have h2 : oe = none := by
    have := hbody.1
    rw [hb] at this
    exact this
  subst h2
  have h1 : apiCallsOf es
      = [.ec2DescribeInstances (instance_filters a),
         .ec2DescribeVolumes (volume_filters a),
         .ec2DescribeSnapshots (snapshot_filters a)] := by
    have := hbody.2
    rw [hb] at this
    exact this
  exact ⟨h1, rfl⟩

/-- The same environment with the `NextToken` markers of all three
describe responses replaced arbitrarily. -/
def retokenDel (env : DelEnv) (t1 t2 t3 : Option String) : DelEnv :=
  ⟨fun f => (env.describeInstances f).map (fun r => ⟨r.Reservations, t1⟩),
   fun f => (env.describeVolumes f).map (fun r => ⟨r.Volumes, t2⟩),
   fun f => (env.describeSnapshots f).map (fun r => ⟨r.Snapshots, t3⟩),
   env.deleteTags⟩

theorem resourceLines_retoken (env : DelEnv) (t1 t2 t3 : Option String)
    (a : DelArgs) (rid : String) (tags : List Tag) :
    resourceLines (retokenDel env t1 t2 t3) a rid tags
      = resourceLines env a rid tags := rfl

theorem instanceItemsLoop_retoken (env : DelEnv) (t1 t2 t3 : Option String)
    (a : DelArgs) :
    ∀ l, instanceItemsLoop (retokenDel env t1 t2 t3) a l = instanceItemsLoop env a l := by
  intro l
  induction l with
  | nil => rfl
  | cons i rest ih =>
    rw [instanceItemsLoop, instanceItemsLoop, resourceLines_retoken, ih]

theorem reservationsLoop_retoken (env : DelEnv) (t1 t2 t3 : Option String)
    (a : DelArgs) :
    ∀ l, reservationsLoop (retokenDel env t1 t2 t3) a l = reservationsLoop env a l := by
  intro l
  induction l with
  | nil => rfl
  | cons r rest ih =>
    rw [reservationsLoop, reservationsLoop, instanceItemsLoop_retoken, ih]

theorem volumeItemsLoop_retoken (env : DelEnv) (t1 t2 t3 : Option String)
    (a : DelArgs) :
    ∀ l, volumeItemsLoop (retokenDel env t1 t2 t3) a l = volumeItemsLoop env a l := by
  intro l
  induction l with
  | nil => rfl
  | cons v rest ih =>
    rw [volumeItemsLoop, volumeItemsLoop, resourceLines_retoken, ih]

theorem snapshotItemsLoop_retoken (env : DelEnv) (t1 t2 t3 : Option String)
    (a : DelArgs) :
    ∀ l, snapshotItemsLoop (retokenDel env t1 t2 t3) a l = snapshotItemsLoop env a l := by
  intro l
  induction l with
  | nil => rfl
  | cons v rest ih =>
    rw [snapshotItemsLoop, snapshotItemsLoop, resourceLines_retoken, ih]

/-- `delete-tag.py` never reads the `NextToken` continuation markers: its
whole behaviour is unchanged when they are replaced arbitrarily — it
processes only the records of each single response. -/
theorem deleteTag_ignores_next_token (env : DelEnv) (a : DelArgs)
    (t1 t2 t3 : Option String) :
    deleteTagMain (retokenDel env t1 t2 t3) a = deleteTagMain env a := by
  have hsnap : snapshotsPhase (retokenDel env t1 t2 t3) a = snapshotsPhase env a := by
    unfold snapshotsPhase
    show (match (env.describeSnapshots (snapshot_filters a)).map
        (fun r => SnapshotsResponse.mk r.Snapshots t3) with
      | .error e => _
      | .ok resp => _) = _
    cases env.describeSnapshots (snapshot_filters a) with
    | error e => rfl
    | ok resp =>
      dsimp only [Except.map]
      rw [snapshotItemsLoop_retoken]
  have hvolp : volumesPhase (retokenDel env t1 t2 t3) a = volumesPhase env a := by
    unfold volumesPhase
    show (match (env.describeVolumes (volume_filters a)).map
        (fun r => VolumesResponse.mk r.Volumes t2) with
      | .error e => _
      | .ok resp => _) = _
    cases env.describeVolumes (volume_filters a) with
    | error e => rfl
    | ok resp =>
      dsimp only [Except.map]
      rw [volumeItemsLoop_retoken, hsnap]
  unfold deleteTagMain deleteTagBody
  show (match (match (env.describeInstances (instance_filters a)).map
      (fun r => InstancesResponse.mk r.Reservations t1) with
    | .error e => _
    | .ok resp => _ : Run) with
    | (es, some (.api (.clientError m))) => _
    | other => _) = _
  cases env.describeInstances (instance_filters a) with
  | error e => rfl
  | ok resp =>
    dsimp only [Except.map]
    rw [reservationsLoop_retoken, hvolp]

end DeleteTag

namespace FindIam

/-- An IAM user dictionary; the script reads `UserName`. -/
structure IamUser where
  UserName : String
deriving DecidableEq, Repr

/-- An access-key dictionary; the script reads `Status` and prints the
whole dictionary, whose rendered form is carried as `raw`. -/
structure AccessKey where
  Status : String
  raw : String
deriving DecidableEq, Repr

/-- A `list_users` response page; `IsTruncated` is never read. -/
structure UsersResponse where
  Users : List IamUser
  IsTruncated : Bool
deriving DecidableEq, Repr

/-- A `list_access_keys` response page; `IsTruncated` is never read. -/
structure KeysResponse where
  AccessKeyMetadata : List AccessKey
  IsTruncated : Bool
deriving DecidableEq, Repr

/-- The vendor environment of `find-iam-user-inactive-access-keys.py`. -/
structure IamEnv where
  listUsers : Except ApiError UsersResponse
  listAccessKeys : String → Except ApiError KeysResponse

/-- The `for key in access_keys['AccessKeyMetadata']` loop: print each
inactive key. -/
def keysLoop : List AccessKey → Run
  | [] => ([], none)
  | k :: rest =>
    seqRun
      (if k.Status == "Inactive" then
        ([.printOut ("Inactive Key: " ++ k.raw ++ "\n")], none)
      else ([], none))
      (keysLoop rest)

/-- The `for user in response['Users']` loop: one `list_access_keys` call
per user (outside any `try`, so its failure propagates uncaught), then the
key loop. -/
def usersLoop (env : IamEnv) : List IamUser → Run
  | [] => ([], none)
  | u :: rest =>
    seqRun
      (match env.listAccessKeys u.UserName with
       | .error e => ([.api (.iamListAccessKeys u.UserName)], some (.api e))
       | .ok resp =>
         seqRun ([.api (.iamListAccessKeys u.UserName)], none)
           (keysLoop resp.AccessKeyMetadata))
      (usersLoop env rest)

/-- Embeds the module body of `find-iam-user-inactive-access-keys.py`: the
`list_users` call sits inside a `try` whose bare `except:` catches every
failure, prints the profile-hint error and raises `SystemExit`; the loop
then runs outside any handler. -/
def findIamMain (env : IamEnv) : Run :=
  match env.listUsers with
  | .error _ =>
    ([.api .iamListUsers,
      .printOut "ERROR: Use AWS_PROFILE environemnt variable or --profile to specify a valid profile.\n"],
     some .systemExit)
  | .ok resp =>
    seqRun ([.api .iamListUsers], none) (usersLoop env resp.Users)

/-- The listing calls the user loop is expected to make: one
`list_access_keys` per user, in order, stopping after the first failing
call. -/
def usersCallList (env : IamEnv) : List IamUser → List ApiCall
  | [] => []
  | u :: rest =>
    .iamListAccessKeys u.UserName ::
      (match env.listAccessKeys u.UserName with
       | .error _ => []
       | .ok _ => usersCallList env rest)

/-- The listing calls the whole script is expected to make. -/
def iamApiList (env : IamEnv) : List ApiCall :=
  .iamListUsers ::
    (match env.listUsers with
     | .error _ => []
     | .ok resp => usersCallList env resp.Users)

theorem apiCallsOf_keysLoop (keys : List AccessKey) :
    (keysLoop keys).2 = none ∧ apiCallsOf (keysLoop keys).1 = [] := by
  induction keys with
  | nil => exact ⟨rfl, rfl⟩
  | cons k rest ih =>
    rw [keysLoop]
    constructor
    · rw [seqRun_none_iff]
      refine ⟨?_, ih.1⟩
      by_cases h : (k.Status == "Inactive") = true <;> simp [h]
    · refine apiCallsOf_seq_both _ _ ?_ ih.2
      by_cases h : (k.Status == "Inactive") = true <;> simp [h, apiCallsOf]

theorem apiCallsOf_usersLoop (env : IamEnv) :
    ∀ users, apiCallsOf (usersLoop env users).1 = usersCallList env users := by
  intro users
  induction users with
  | nil => rfl
  | cons u rest ih =>
    rw [usersLoop, usersCallList]
    cases hk : env.listAccessKeys u.UserName with
    | error e =>
      rw [apiCallsOf_seqRun]
      simp [apiCallsOf]
    | ok resp =>
      rw [apiCallsOf_seqRun]
      have hkeys := apiCallsOf_keysLoop resp.AccessKeyMetadata
      rw [if_pos (by rw [seqRun_none_iff]; exact ⟨rfl, hkeys.1⟩)]
      rw [apiCallsOf_seqRun, if_pos rfl, hkeys.2, ih]
      simp [apiCallsOf]

/-- The whole script's listing calls, for every environment: `list_users`
exactly once, then `list_access_keys` exactly once per user until the
first failure, with no retry and no continuation. -/
theorem findIam_apiCalls (env : IamEnv) :
    apiCallsOf (findIamMain env).1 = iamApiList env := by
  unfold findIamMain iamApiList
  cases hu : env.listUsers with
  | error e => simp [apiCallsOf]
  | ok resp =>
    rw [apiCallsOf_seqRun, if_pos rfl, apiCallsOf_usersLoop]
    simp [apiCallsOf]

theorem usersCallList_all_ok (env : IamEnv)
    (hk : ∀ u, ∃ kr, env.listAccessKeys u = Except.ok kr) :
    ∀ users, usersCallList env users
      = users.map (fun u => ApiCall.iamListAccessKeys u.UserName) := by
  intro users
  induction users with
  | nil => rfl
  | cons u rest ih =>
    obtain ⟨kr, hkr⟩ := hk u.UserName
    rw [usersCallList, hkr, List.map_cons, ih]

/-- The same environment with both `IsTruncated` markers replaced
arbitrarily. -/
def retokenIam (env : IamEnv) (b1 b2 : Bool) : IamEnv :=
  ⟨env.listUsers.map (fun r => ⟨r.Users, b1⟩),
   fun u => (env.listAccessKeys u).map (fun r => ⟨r.AccessKeyMetadata, b2⟩)⟩

theorem usersLoop_retoken (env : IamEnv) (b1 b2 : Bool) :
    ∀ users, usersLoop (retokenIam env b1 b2) users = usersLoop env users := by
  intro users
  induction users with
  | nil => rfl
  | cons u rest ih =>
    rw [usersLoop, usersLoop]
    show seqRun
      (match (env.listAccessKeys u.UserName).map
          (fun r => KeysResponse.mk r.AccessKeyMetadata b2) with
        | .error e => _
        | .ok resp => _) _ = _
    cases env.listAccessKeys u.UserName with
    | error e => rw [ih]; rfl
    | ok resp =>
      dsimp only [Except.map]
      rw [ih]

/-- `find-iam-user-inactive-access-keys.py` never reads the `IsTruncated`
markers: its behaviour only depends on the single responses' records. -/
theorem findIam_ignores_truncation (env : IamEnv) (b1 b2 : Bool) :
    findIamMain (retokenIam env b1 b2) = findIamMain env := by
  unfold findIamMain
  show (match env.listUsers.map (fun r => UsersResponse.mk r.Users b1) with
    | .error _ => _
    | .ok resp => _) = _
  cases env.listUsers with
  | error e => rfl
  | ok resp =>
    dsimp only [Except.map]
    rw [usersLoop_retoken]

end FindIam

/-- C5: no script implements retry loops or pagination continuation
itself.  `find-iam-user-inactive-access-keys.py` issues `list_users`
exactly once and `list_access_keys` exactly once per user of that single
response; `delete-tag.py` issues `describe_instances`, `describe_volumes`
and `describe_snapshots` exactly once each; and both scripts' entire
behaviour is unchanged when the truncation markers of the responses are
replaced arbitrarily — only the records contained in each single response
are processed. -/
theorem C5_listing_calls_issued_once
    (ienv : FindIam.IamEnv) (uresp : FindIam.UsersResponse)
    (hu : ienv.listUsers = Except.ok uresp)
    (hk : ∀ u, ∃ kr, ienv.listAccessKeys u = Except.ok kr)
    (b1 b2 : Bool)
    (denv : DeleteTag.DelEnv) (a : DeleteTag.DelArgs)
    (ri : DeleteTag.InstancesResponse) (rv : DeleteTag.VolumesResponse)
    (rs : DeleteTag.SnapshotsResponse)
    (hd : ∀ r k, denv.deleteTags r k = Except.ok ())
    (hri : denv.describeInstances (DeleteTag.instance_filters a) = Except.ok ri)
    (hrv : denv.describeVolumes (DeleteTag.volume_filters a) = Except.ok rv)
    (hrs : denv.describeSnapshots (DeleteTag.snapshot_filters a) = Except.ok rs)
    (t1 t2 t3 : Option String) :
    apiCallsOf (FindIam.findIamMain ienv).1
      = .iamListUsers :: uresp.Users.map (fun u => .iamListAccessKeys u.UserName)
    ∧ apiCallsOf (DeleteTag.deleteTagMain denv a).1
      = [.ec2DescribeInstances (DeleteTag.instance_filters a),
         .ec2DescribeVolumes (DeleteTag.volume_filters a),
         .ec2DescribeSnapshots (DeleteTag.snapshot_filters a)]
    ∧ FindIam.findIamMain (FindIam.retokenIam ienv b1 b2) = FindIam.findIamMain ienv
    ∧ DeleteTag.deleteTagMain (DeleteTag.retokenDel denv t1 t2 t3) a
      = DeleteTag.deleteTagMain denv a := by
  refine ⟨?_, (DeleteTag.deleteTag_apiCalls denv a ri rv rs hd hri hrv hrs).1,
    FindIam.findIam_ignores_truncation ienv b1 b2,
    DeleteTag.deleteTag_ignores_next_token denv a t1 t2 t3⟩
  rw [FindIam.findIam_apiCalls]
  unfold FindIam.iamApiList
  rw [hu]
  dsimp only
  rw [FindIam.usersCallList_all_ok ienv hk]

/-- A concrete two-user IAM environment: `list_access_keys` is issued once
per user. -/
def ienvW : FindIam.IamEnv :=
  ⟨Except.ok ⟨[⟨"alice"⟩, ⟨"bob"⟩], false⟩,
   fun _ => Except.ok ⟨[⟨"Inactive", "key1"⟩], false⟩⟩

/-- A concrete delete-tag environment with one resource per phase. -/
def denvW : DeleteTag.DelEnv :=
  ⟨fun _ => Except.ok ⟨[[⟨"i-1", [⟨"AppName", "x"⟩]⟩]], none⟩,
   fun _ => Except.ok ⟨[⟨"vol-1", [⟨"AppName", "x"⟩]⟩], none⟩,
   fun _ => Except.ok ⟨[⟨"snap-1", [⟨"AppName", "x"⟩]⟩], none⟩,
   fun _ _ => Except.ok ()⟩

/-- A concrete real-delete invocation of `delete-tag.py`. -/
def delArgsW : DeleteTag.DelArgs := ⟨none, "AppName", false, true, false⟩

/-- Witness for C5 at the concrete environments. -/
theorem C5_listing_calls_issued_once_witness :
    apiCallsOf (FindIam.findIamMain ienvW).1
      = [.iamListUsers, .iamListAccessKeys "alice", .iamListAccessKeys "bob"]
    ∧ apiCallsOf (DeleteTag.deleteTagMain denvW delArgsW).1
      = [.ec2DescribeInstances (DeleteTag.instance_filters delArgsW),
         .ec2DescribeVolumes (DeleteTag.volume_filters delArgsW),
         .ec2DescribeSnapshots (DeleteTag.snapshot_filters delArgsW)] := by
  have h := C5_listing_calls_issued_once ienvW ⟨[⟨"alice"⟩, ⟨"bob"⟩], false⟩ rfl
    (fun u => ⟨⟨[⟨"Inactive", "key1"⟩], false⟩, rfl⟩) false true
    denvW delArgsW
    ⟨[[⟨"i-1", [⟨"AppName", "x"⟩]⟩]], none⟩
    ⟨[⟨"vol-1", [⟨"AppName", "x"⟩]⟩], none⟩
    ⟨[⟨"snap-1", [⟨"AppName", "x"⟩]⟩], none⟩
    (fun _ _ => rfl) rfl rfl rfl none none none
  exact ⟨h.1, h.2.1⟩

/-- Counterexample to C6 as stated: for an instance whose volume value
differs, the dry run prints `Differs - Would Update (...)` where the real
run prints `Differs - Updating (...)` — the report lines are not the same,
they only correspond per resource. -/
theorem C6_same_report_lines_refuted :
    printsOf (Propagate.propagate_tag Propagate.envP [Propagate.instDiff] "AppName" true).1
      ≠ printsOf (Propagate.propagate_tag Propagate.envP [Propagate.instDiff] "AppName" false).1 := by
  decide

/-- C6 (amended): `--dry-run` propagation and the non-mutating delete-tag
modes issue no mutating API call — `propagate_tag` never calls `set_tag`
when `dry_run` is true, and `delete-tag` issues `delete_tags` only when
`delete` is set and `dry_run` is not.  The per-resource report lines are
still printed for exactly the same resources in the same order: the dry
and real propagation traces are the same parameterized line list with
`Differs - Would Update` in place of `Differs - Updating`, and delete-tag's
non-mutating modes (`--report`, and `--delete --dry-run`) produce
literally identical traces. -/
theorem C6_dry_run_no_mutation
    (penv : Propagate.PropEnv) (insts : List Propagate.PInstance) (tag_key : String)
    (hok : ∀ r k v, penv.createTags r k v = Except.ok ())
    (denv : DeleteTag.DelEnv) (a1 a2 : DeleteTag.DelArgs)
    (hlim : a1.limit_instance_id = a2.limit_instance_id)
    (hkey : a1.tag_key = a2.tag_key)
    (h1 : (a1.delete && !a1.dry_run) = false)
    (h2 : (a2.delete && !a2.dry_run) = false) :
    mutationsOf (Propagate.propagate_tag penv insts tag_key true).1 = []
    ∧ printsOf (Propagate.propagate_tag penv insts tag_key true).1
        = Propagate.propLines insts tag_key "Differs - Would Update"
    ∧ printsOf (Propagate.propagate_tag penv insts tag_key false).1
        = Propagate.propLines insts tag_key "Differs - Updating"
    ∧ mutationsOf (DeleteTag.deleteTagMain denv a1).1 = []
    ∧ DeleteTag.deleteTagMain denv a1 = DeleteTag.deleteTagMain denv a2 := by
  have hdry := Propagate.propagate_tag_char penv insts tag_key true
    (fun h => absurd h (by decide))
  have hreal := Propagate.propagate_tag_char penv insts tag_key false (fun _ => hok)
  refine ⟨?_, ?_, ?_, DeleteTag.deleteTag_noMut denv a1 h1,
    DeleteTag.deleteTagMain_congr denv a1 a2 hlim hkey h1 h2⟩
  · simpa using hdry.2.2
  · simpa [Propagate.statusPhrase] using hdry.2.1
  · simpa [Propagate.statusPhrase] using hreal.2.1

namespace DynamoImport

/-- The environment of `dynamodb-import.py`: the parsed rows of the CSV
file and the oracle for each `put_item` (the `batch_writer` buffering is
abstracted: each `batch.put_item(Item=data)` is modelled as one write
call). -/
structure DynEnv where
  csvRows : List (List String)
  putItem : List (String × String) → Except ApiError Unit

/-- Python `entry.lower()` (ASCII lowering, as in `tf_safe_name`). -/
def pyLowerStr (s : String) : String := ⟨pyLowerL s.data⟩

/-- Python dictionary assignment `d[k] = v`: an existing key keeps its
position and takes the new value, a new key is appended. -/
def dictInsert (d : List (String × String)) (k v : String) :
    List (String × String) :=
  if d.any (fun p => p.1 == k) then
    d.map (fun p => if p.1 == k then (k, v) else p)
  else d ++ [(k, v)]

/-- The `for field_index, entry in enumerate(header)` loop that builds the
item dictionary: `row[field_index]` raises `IndexError` when the row is
shorter than the header; empty-string cells are skipped (`we can not add
null values`); keys are lowercased. -/
def buildItemAux (row : List String) : Nat → List String →
    List (String × String) → Except PyExc (List (String × String))
  | _, [], d => .ok d
  | i, entry :: rest, d =>
    match row.get? i with
    | none => .error .indexError
    | some v =>
      buildItemAux row (i + 1) rest
        (if v ≠ "" then dictInsert d (pyLowerStr entry) v else d)

/-- The item built for one data row. -/
def buildItem (header row : List String) : Except PyExc (List (String × String)) :=
  buildItemAux row 0 header []

/-- The row loop: build each item and issue one `put_item`; no `try`
surrounds any of it, so every failure propagates uncaught.  (The source's
`if row == "": continue` compares a list against a string and is always
false, so it is not modelled.) -/
def rowsLoop (env : DynEnv) (table : String) (header : List String) :
    List (List String) → Run
  | [] => ([], none)
  | row :: rest =>
    match buildItem header row with
    | .error e => ([], some e)
    | .ok data =>
      seqRun
        ([.mutate (.dynamoPutItem table data)],
         match env.putItem data with
         | .ok _ => none
         | .error e => some (.api e))
        (rowsLoop env table header rest)

/-- Embeds the module body of `dynamodb-import.py` (after argument
validation): open and read the CSV, take the first row as header, import
the remaining rows.  There is no exception handling anywhere around the
boto3 calls (the source itself carries a `TODO` to add some). -/
def dynamoImportMain (env : DynEnv) (table csv_file : String) : Run :=
  seqRun ([.fileRead csv_file], none)
    (match env.csvRows with
     | [] => ([], none)
     | header :: rows => rowsLoop env table header rows)

/-- The `put_item` mutations the row loop is expected to issue: one per
row, in order, stopping at the first failure. -/
def dynMutList (env : DynEnv) (table : String) (header : List String) :
    List (List String) → List ApiMutation
  | [] => []
  | row :: rest =>
    match buildItem header row with
    | .error _ => []
    | .ok data =>
      .dynamoPutItem table data ::
        (match env.putItem data with
         | .error _ => []
         | .ok _ => dynMutList env table header rest)

theorem rowsLoop_mutations (env : DynEnv) (table : String) (header : List String) :
    ∀ rows, mutationsOf (rowsLoop env table header rows).1
      = dynMutList env table header rows := by
  intro rows
  induction rows with
  | nil => rfl
  | cons row rest ih =>
    rw [rowsLoop, dynMutList]
    cases hb : buildItem header row with
    | error e => simp [mutationsOf]
    | ok data =>
      cases hp : env.putItem data with
      | error e =>
        rw [mutationsOf_seqRun]
        simp [hp, mutationsOf]
      | ok u =>
        rw [mutationsOf_seqRun, if_pos (by simp [hp]), ih]
        simp [hp, mutationsOf]

/-- The whole import's mutations: one attempted `put_item` per data row in
order, none issued twice, nothing after the first failure. -/
theorem dynamo_mutations (env : DynEnv) (table csv_file : String) :
    mutationsOf (dynamoImportMain env table csv_file).1
      = (match env.csvRows with
         | [] => []
         | header :: rows => dynMutList env table header rows) := by
  unfold dynamoImportMain
  cases hc : env.csvRows with
  | nil => simp [seqRun, mutationsOf]
  | cons header rows =>
    rw [seqRun_ok, mutationsOf_append]
    rw [rowsLoop_mutations]
    simp [mutationsOf]

/-- A CSV with a header and one data row, and a `put_item` oracle that
always fails with a `ClientError`. -/
def dynEnvFail : DynEnv :=
  ⟨[["id", "name"], ["1", "alice"]],
   fun _ => Except.error (.clientError "ProvisionedThroughputExceededException")⟩

end DynamoImport

namespace GetSG

/-- A `{CidrIp | CidrIpv6, Description}` element of a rule's IP ranges. -/
structure IpRange where
  CidrIp : Option String
  CidrIpv6 : Option String
  Description : Option String
deriving DecidableEq, Repr

/-- A `UserIdGroupPairs` element.  `GroupId` is modelled as a plain string
(empty when the key is absent or falsy); the peering fields are only read
inside the `PeeringStatus` branch. -/
structure GroupPair where
  GroupId : String
  UserId : String
  VpcId : String
  VpcPeeringConnectionId : String
  PeeringStatus : Option String
  Description : Option String
deriving DecidableEq, Repr

/-- One ingress/egress rule dictionary. -/
structure SGRule where
  IpProtocol : String
  FromPort : Option Int
  ToPort : Option Int
  IpRanges : List IpRange
  Ipv6Ranges : List IpRange
  UserIdGroupPairs : List GroupPair
deriving DecidableEq, Repr

/-- A security group as returned by the VPC's collection. -/
structure SG where
  id : String
  group_name : String
  description : String
  tags : Option (List Tag)
  ip_permissions : List SGRule
  ip_permissions_egress : List SGRule
deriving DecidableEq, Repr

/-- The vendor environment of `get-security-groups.py`: the security
groups of the requested VPC (optionally limited to one group id). -/
structure SgEnv where
  sgsResp : Except ApiError (List SG)

/-- Python dictionary lookup in `sg_id_to_name` (later bindings win). -/
def dictLookup (m : List (String × String)) (k : String) : Option String :=
  (m.reverse.find? (fun p => p.1 == k)).map (fun p => p.2)

/-- The port rendering: an absent or falsy (`0`) port prints as `0`, any
other integer prints as itself. -/
def portStr (p : Option Int) : String :=
  match p with
  | some v => if v ≠ 0 then toString v else "0"
  | none => "0"

/-- Python `str.strip()` on ASCII whitespace. -/
def pyStrip (s : String) : String :=
  ⟨((s.data.dropWhile Char.isWhitespace).reverse.dropWhile Char.isWhitespace).reverse⟩

/-- The group-pair rule line (printed with `end=""`). -/
def pairLine (rule_type : String) (rule : SGRule) (src desc : String) : String :=
  "      - \x7b type: \"" ++ rule_type ++ "\", proto: \"" ++ rule.IpProtocol
    ++ "\", from: \"" ++ portStr rule.FromPort ++ "\", to: \"" ++ portStr rule.ToPort
    ++ "\", source: \"" ++ src ++ "\", desc: \"" ++ desc ++ "\" \x7d"

/-- The IP-range rule line (printed with a newline). -/
def rangeLine (rule_type : String) (rule : SGRule) (cidr desc : String) : String :=
  "      - \x7b type: \"" ++ rule_type ++ "\", proto: \"" ++ rule.IpProtocol
    ++ "\", from: \"" ++ portStr rule.FromPort ++ "\", to: \"" ++ portStr rule.ToPort
    ++ "\", source: [ \"" ++ cidr ++ "\" ], desc: \"" ++ desc ++ "\" \x7d\n"

/-- The `source_sg` / `rule_comment` resolution for one pair whose
`GroupId` is truthy: `self` for the group itself, the name for a group of
the same VPC, otherwise the raw id, with the comment set in the peering
branch. -/
def resolvePair (selfId : String) (m : List (String × String)) (s : GroupPair)
    (comment : String) : String × String :=
  let g := s.GroupId
  if g = selfId then ("self", comment)
  else
    match dictLookup m g with
    | some nm =>
      if nm ≠ "" then (nm, comment)
      else if truthyStr s.PeeringStatus then
        (g, g ++ "-in-" ++ s.UserId ++ "-" ++ s.VpcId ++ "-via-" ++ s.VpcPeeringConnectionId)
      else (g, comment)
    | none =>
      if truthyStr s.PeeringStatus then
        (g, g ++ "-in-" ++ s.UserId ++ "-" ++ s.VpcId ++ "-via-" ++ s.VpcPeeringConnectionId)
      else (g, comment)

/-- The `for s in source_sgs` loop of `print_rule`.  `rule_comment` is not
reset between pairs, so it persists (threaded as state); `source_sg` is a
plain Python variable, unbound until a pair with a truthy `GroupId` binds
it — printing with it unbound raises `NameError`. -/
def pairsLoop (selfId : String) (m : List (String × String)) (rule_type : String)
    (rule : SGRule) : List GroupPair → String → Option String → Run
  | [], _, _ => ([], none)
  | s :: rest, comment, src0 =>
    let desc := s.Description.getD ""
    let step : Option String × String :=
      if s.GroupId ≠ "" then
        let rc := resolvePair selfId m s comment
        (some rc.1, rc.2)
      else (src0, comment)
    match step.1 with
    | none => ([], some .nameError)
    | some src =>
      seqRun
        ([.printOut (pairLine rule_type rule src desc),
          .printOut (if step.2 ≠ "" then " # " ++ step.2 ++ "\n" else "\n")], none)
        (pairsLoop selfId m rule_type rule rest step.2 (some src))

/-- The `for s in source_ip_ranges` loop of `print_rule`: an empty source,
overridden by `CidrIp` and then by `CidrIpv6` when truthy. -/
def rangesLoop (rule_type : String) (rule : SGRule) : List IpRange → Run
  | [] => ([], none)
  | s :: rest =>
    let desc := s.Description.getD ""
    let c1 := if truthyStr s.CidrIp then s.CidrIp.getD "" else ""
    let cidr := if truthyStr s.CidrIpv6 then s.CidrIpv6.getD "" else c1
    seqRun ([.printOut (rangeLine rule_type rule cidr desc)], none)
      (rangesLoop rule_type rule rest)

/-- Embeds `print_rule(rule_type, rule)`: the group-pair lines, then the
IP-range lines over `IpRanges ++ Ipv6Ranges`. -/
def print_rule (selfId : String) (m : List (String × String)) (rule_type : String)
    (rule : SGRule) : Run :=
  seqRun (pairsLoop selfId m rule_type rule rule.UserIdGroupPairs "" none)
    (rangesLoop rule_type rule (rule.IpRanges ++ rule.Ipv6Ranges))

/-- A `for rule in ...: print_rule(...)` loop. -/
def rulesLoop (selfId : String) (m : List (String × String)) (rule_type : String) :
    List SGRule → Run
  | [] => ([], none)
  | rule :: rest =>
    seqRun (print_rule selfId m rule_type rule) (rulesLoop selfId m rule_type rest)

/-- The body of the second `for sg in sgs` loop: the `sg-name`/`sg-desc`
headers (the computed `sg_name_tag` of lines 187-189 is never used and
produces no effect), then the ingress and egress rules. -/
def sgBlock (m : List (String × String)) (sg : SG) : Run :=
  let tf := make_tf_safe_sg_name sg.group_name
  seqRun
    ([.printOut ("  - sg-name: \"" ++ sg.group_name
        ++ "\"  # terraform import aws_security_group." ++ tf ++ " " ++ sg.id ++ "\n"),
      .printOut ("    sg-desc: \"" ++ pyStrip sg.description ++ "\"\n"),
      .printOut "    sg-rules:\n"], none)
    (seqRun (rulesLoop sg.id m "ingress" sg.ip_permissions)
      (rulesLoop sg.id m "egress" sg.ip_permissions_egress))

/-- The second `for sg in sgs` loop. -/
def sgsLoop (m : List (String × String)) : List SG → Run
  | [] => ([], none)
  | sg :: rest => seqRun (sgBlock m sg) (sgsLoop m rest)

/-- Embeds the module body of `get-security-groups.py` (after argument
validation): the first loop over the collection (one describe call) builds
`sg_id_to_name` silently, then `security-groups:` is printed and the
second loop over the collection (boto3 re-issues the describe call on
re-iteration) prints each group's block.  A failing describe propagates
uncaught — the loops sit outside any `try`. -/
def getSgMain (env : SgEnv) (vpc_id : String) (sg_limit : Option String) : Run :=
  match env.sgsResp with
  | .error e => ([.api (.describeSecurityGroups vpc_id sg_limit)], some (.api e))
  | .ok sgs =>
    let m := sgs.map (fun sg => (sg.id, sg.group_name))
    seqRun ([.api (.describeSecurityGroups vpc_id sg_limit)], none)
      (seqRun ([.printOut "security-groups:\n"], none)
        (seqRun ([.api (.describeSecurityGroups vpc_id sg_limit)], none)
          (sgsLoop m sgs)))

end GetSG

theorem buildItemAux_err (row : List String) :
    ∀ (hs : List String) (i : Nat) (d : List (String × String)) (e : PyExc),
    DynamoImport.buildItemAux row i hs d = Except.error e → e = PyExc.indexError := by
  intro hs
  induction hs with
  | nil => intro i d e h; simp [DynamoImport.buildItemAux] at h
  | cons entry rest ih =>
    intro i d e h
    rw [DynamoImport.buildItemAux] at h
    cases hg : row.get? i with
    | none =>
      rw [hg] at h
      simp at h
      exact h.symm
    | some v =>
      rw [hg] at h
      exact ih (i + 1) _ e h

theorem rowsLoop_no_sysExit (env : DynamoImport.DynEnv) (table : String)
    (header : List String) :
    ∀ (rows : List (List String)) (e : PyExc),
    (DynamoImport.rowsLoop env table header rows).2 = some e →
    e ≠ PyExc.systemExit := by
  intro rows
  induction rows with
  | nil => intro e h; simp [DynamoImport.rowsLoop] at h
  | cons row rest ih =>
    intro e h
    rw [DynamoImport.rowsLoop] at h
    cases hb : DynamoImport.buildItem header row with
    | error e2 =>
      rw [hb] at h
      simp at h
      rw [← h]
      have := buildItemAux_err row header 0 [] e2 hb
      rw [this]
      simp
    | ok data =>
      rw [hb] at h
      dsimp only at h
      cases hp : env.putItem data with
      | error e2 =>
        rw [hp] at h
        simp [seqRun] at h
        rw [← h]
        simp
      | ok u =>
        rw [hp] at h
        rw [seqRun_ok] at h
        exact ih e h

theorem dynamo_no_sysExit (env : DynamoImport.DynEnv) (table csv : String)
    (e : PyExc) (h : (DynamoImport.dynamoImportMain env table csv).2 = some e) :
    e ≠ PyExc.systemExit := by
  unfold DynamoImport.dynamoImportMain at h
  rw [seqRun_ok] at h
  cases hc : env.csvRows with
  | nil =>
    rw [hc] at h
    simp at h
  | cons header rows =>
    rw [hc] at h
    exact rowsLoop_no_sysExit env table header rows e h

/-- Counterexample to C3 as stated: `dynamodb-import.py` has no exception
handling at all (its source carries a `TODO` to add some), so a
`ClientError` from `put_item` is not caught at the call site and does not
raise `SystemExit` — the process dies with an uncaught exception. -/
theorem C3_error_caught_systemexit_refuted :
    outcomeOf (DynamoImport.dynamoImportMain DynamoImport.dynEnvFail
        "mytable" "data.csv").2 = Outcome.uncaught
    ∧ Outcome.uncaught ≠ Outcome.sysExit := by
  decide

/-- A CloudTrail environment whose S3 fetch fails with `ClientError`. -/
def ctEnvFail : CloudTrail.CtEnv :=
  ⟨fun _ _ => Except.error (.clientError "AccessDenied"),
   fun _ => Except.ok [], fun _ _ _ => Except.ok ()⟩

/-- A propagate-tags environment whose instance filter fails with
`ClientError`. -/
def propEnvFail : Propagate.PropEnv :=
  ⟨Except.error (.clientError "AccessDenied"), fun _ _ _ => Except.ok ()⟩

/-- A propagate-tags invocation without limits. -/
def propArgsW : Propagate.PropArgs := ⟨none, none, none⟩

/-- C3 (amended): an error raised by a vendor API call either is caught by
an enclosing handler and causes `SystemExit`, or propagates uncaught —
in both cases the process terminates at once and no API call is attempted
after the failure; no retry or recovery exists anywhere.  Concretely:
find-iam's listing calls are exactly its expected once-each call list for
every environment; dynamodb-import attempts exactly one `put_item` per row
up to the first failure and never raises `SystemExit` (nothing catches its
errors); and a `ClientError` from the S3 fetch (cloudtrail), the instance
filter (propagate-tags) or the first describe (delete-tag) is caught,
logged/printed, and converted to `SystemExit` with exactly one API call in
the trace. -/
theorem C3_failure_discipline
    (ienv : FindIam.IamEnv) (dynenv : DynamoImport.DynEnv) (table csv : String)
    (ctenv : CloudTrail.CtEnv) (bucket key m1 : String)
    (penv : Propagate.PropEnv) (pa : Propagate.PropArgs)
    (pmode : Propagate.PropMode) (ptag : String) (pdry : Bool) (m2 : String)
    (denv : DeleteTag.DelEnv) (da : DeleteTag.DelArgs) (m3 : String) :
    apiCallsOf (FindIam.findIamMain ienv).1 = FindIam.iamApiList ienv
    ∧ mutationsOf (DynamoImport.dynamoImportMain dynenv table csv).1
        = (match dynenv.csvRows with
           | [] => []
           | header :: rows => DynamoImport.dynMutList dynenv table header rows)
    ∧ (∀ e, (DynamoImport.dynamoImportMain dynenv table csv).2 = some e →
        e ≠ PyExc.systemExit)
    ∧ (ctenv.s3GetObject bucket key = Except.error (.clientError m1) →
        CloudTrail.get_records ctenv bucket key
          = ([.api (.s3GetObject bucket key), .logError m1],
             Except.error PyExc.systemExit))
    ∧ (penv.instancesResp = Except.error (.clientError m2) →
        Propagate.propagateTagsMain penv pa pmode ptag pdry
          = ([.api (.ec2DescribeInstances (Propagate.propFilters pa)),
              .printOut ("ERROR: Something went wrong: " ++ m2 ++ "\n")],
             some PyExc.systemExit))
    ∧ (denv.describeInstances (DeleteTag.instance_filters da)
        = Except.error (.clientError m3) →
        DeleteTag.deleteTagMain denv da
          = ([.api (.ec2DescribeInstances (DeleteTag.instance_filters da)),
              .printOut ("\nERROR: " ++ m3 ++ "\n")],
             some PyExc.systemExit)) := by
  refine ⟨FindIam.findIam_apiCalls ienv,
    DynamoImport.dynamo_mutations dynenv table csv,
    fun e h => dynamo_no_sysExit dynenv table csv e h,
    ?_, ?_, ?_⟩
  · intro h
    unfold CloudTrail.get_records
    rw [h]
  · intro h
    unfold Propagate.propagateTagsMain
    rw [h]
    exact rfl
  · intro h
    unfold DeleteTag.deleteTagMain DeleteTag.deleteTagBody
    rw [h]
    exact rfl

/-- Witness for C3 at concrete failing environments: the caught
`ClientError`s become `SystemExit` with a single API call in the trace. -/
theorem C3_failure_discipline_witness :
    Propagate.propagateTagsMain propEnvFail propArgsW Propagate.PropMode.propagate
        "AppName" false
      = ([.api (.ec2DescribeInstances (Propagate.propFilters propArgsW)),
          .printOut "ERROR: Something went wrong: AccessDenied\n"],
         some PyExc.systemExit)
    ∧ CloudTrail.get_records ctEnvFail "trail-bucket" "k.json.gz"
      = ([.api (.s3GetObject "trail-bucket" "k.json.gz"), .logError "AccessDenied"],
         Except.error PyExc.systemExit) :=
  ⟨(C3_failure_discipline ienvW DynamoImport.dynEnvFail "mytable" "data.csv"
      ctEnvFail "trail-bucket" "k.json.gz" "AccessDenied"
      propEnvFail propArgsW .propagate "AppName" false "AccessDenied"
      denvW delArgsW "oops").2.2.2.2.1 rfl,
   (C3_failure_discipline ienvW DynamoImport.dynEnvFail "mytable" "data.csv"
      ctEnvFail "trail-bucket" "k.json.gz" "AccessDenied"
      propEnvFail propArgsW .propagate "AppName" false "AccessDenied"
      denvW delArgsW "oops").2.2.2.1 rfl⟩

/-- Whether a trace contains no write to the local filesystem. -/
def noFileWrite (es : List Effect) : Bool := es.all (fun e => ! e.isFileWrite)

theorem noFileWrite_nil : noFileWrite [] = true := rfl

theorem noFileWrite_cons (e : Effect) (es : List Effect) :
    noFileWrite (e :: es) = (!e.isFileWrite && noFileWrite es) := rfl

theorem noFileWrite_append (a b : List Effect) :
    noFileWrite (a ++ b) = (noFileWrite a && noFileWrite b) := by
  simp [noFileWrite, List.all_append]

theorem noFileWrite_seqRun (x y : Run) (hx : noFileWrite x.1 = true)
    (hy : noFileWrite y.1 = true) : noFileWrite (seqRun x y).1 = true := by
  obtain ⟨es, oe⟩ := x
  cases oe with
  | none =>
    show noFileWrite (es ++ y.1) = true
    rw [noFileWrite_append]
    simp only [Bool.and_eq_true]
    exact ⟨hx, hy⟩
  | some e => exact hx

theorem ct_get_records_noW (env : CloudTrail.CtEnv) (b k : String) :
    noFileWrite (CloudTrail.get_records env b k).1 = true := by
  unfold CloudTrail.get_records
  split <;> rfl

theorem ct_get_ec2_tag_noW (env : CloudTrail.CtEnv) (iid k : String) :
    noFileWrite (CloudTrail.get_ec2_tag env iid k).1 = true := by
  unfold CloudTrail.get_ec2_tag
  dsimp only
  split <;> rfl

theorem ct_processItem_noW (env : CloudTrail.CtEnv) (event : CloudTrail.CtEvent)
    (record : CloudTrail.TrailRecord) (rn itn : Nat) (iid : String) :
    noFileWrite (CloudTrail.processItem env event record rn itn iid).1 = true := by
  have h1 := ct_get_ec2_tag_noW env iid "alert_topic_arn"
  have h2 := ct_get_ec2_tag_noW env iid "Name"
  unfold CloudTrail.processItem
  dsimp only
  split
  next es exc heq =>
    rw [heq] at h1
    dsimp only at h1
    simp [noFileWrite_append, noFileWrite_cons, noFileWrite_nil, Effect.isFileWrite, h1]
  next es topt heq =>
    rw [heq] at h1
    dsimp only at h1
    split
    next arn =>
      split
      next =>
        simp [noFileWrite_append, noFileWrite_cons, noFileWrite_nil, Effect.isFileWrite, h1]
      next =>
        split
        next hlen =>
          split
          next es2 exc2 heq2 =>
            rw [heq2] at h2
            dsimp only at h2
            simp [noFileWrite_append, noFileWrite_cons, noFileWrite_nil,
              Effect.isFileWrite, h1, h2]
          next es2 nt heq2 =>
            rw [heq2] at h2
            dsimp only at h2
            split <;>
              simp [noFileWrite_append, noFileWrite_cons, noFileWrite_nil,
                Effect.isFileWrite, h1, h2]
        next hlen =>
          simp [noFileWrite_append, noFileWrite_cons, noFileWrite_nil,
            Effect.isFileWrite, h1]
    next =>
      simp [noFileWrite_append, noFileWrite_cons, noFileWrite_nil, Effect.isFileWrite, h1]

theorem ct_processItems_noW (env : CloudTrail.CtEnv) (event : CloudTrail.CtEvent)
    (record : CloudTrail.TrailRecord) (rn : Nat) :
    ∀ (itn : Nat) (items : List CloudTrail.TrailItem),
    noFileWrite (CloudTrail.processItems env event record rn itn items).1 = true := by
  intro itn items
  induction items generalizing itn with
  | nil => rfl
  | cons it rest ih =>
    rw [CloudTrail.processItems]
    exact noFileWrite_seqRun _ _
      (ct_processItem_noW env event record rn itn it.instanceId) (ih (itn + 1))

theorem ct_processRecord_noW (env : CloudTrail.CtEnv) (event : CloudTrail.CtEvent)
    (rn : Nat) (record : CloudTrail.TrailRecord) :
    noFileWrite (CloudTrail.processRecord env event rn record).1 = true := by
  unfold CloudTrail.processRecord
  split
  next en heq =>
    split
    · exact ct_processItems_noW env event record rn 0 record.items
    · rfl
  next => rfl

theorem ct_processRecords_noW (env : CloudTrail.CtEnv) (event : CloudTrail.CtEvent) :
    ∀ (n : Nat) (rs : List CloudTrail.TrailRecord),
    noFileWrite (CloudTrail.processRecords env event n rs).1 = true := by
  intro n rs
  induction rs generalizing n with
  | nil => rfl
  | cons r rest ih =>
    rw [CloudTrail.processRecords]
    exact noFileWrite_seqRun _ _ (ct_processRecord_noW env event n r) (ih (n + 1))

theorem ct_processObject_noW (env : CloudTrail.CtEnv) (event : CloudTrail.CtEvent)
    (er : CloudTrail.S3EventRecord) :
    noFileWrite (CloudTrail.processObject env event er).1 = true := by
  have h1 := ct_get_records_noW env er.bucket er.key
  unfold CloudTrail.processObject
  dsimp only
  split
  next es exc heq =>
    rw [heq] at h1
    dsimp only at h1
    simp [noFileWrite_append, noFileWrite_cons, noFileWrite_nil, Effect.isFileWrite, h1]
  next es records heq =>
    rw [heq] at h1
    dsimp only at h1
    refine noFileWrite_seqRun _ _ ?_ (ct_processRecords_noW env event 0 records)
    simp [noFileWrite_append, noFileWrite_cons, noFileWrite_nil, Effect.isFileWrite, h1]

theorem ct_processObjects_noW (env : CloudTrail.CtEnv) (event : CloudTrail.CtEvent) :
    ∀ ers, noFileWrite (CloudTrail.processObjects env event ers).1 = true := by
  intro ers
  induction ers with
  | nil => rfl
  | cons er rest ih =>
    rw [CloudTrail.processObjects]
    exact noFileWrite_seqRun _ _ (ct_processObject_noW env event er) ih

theorem ct_main_noW (env : CloudTrail.CtEnv) (event : CloudTrail.CtEvent) :
    noFileWrite (CloudTrail.lambda_handler env event).1 = true := by
  unfold CloudTrail.lambda_handler CloudTrail.main
  exact ct_processObjects_noW env event _

theorem prop_set_tag_noW (env : Propagate.PropEnv) (r k v : String) :
    noFileWrite (Propagate.set_tag env r k v).1 = true := rfl

theorem prop_to_volume_noW (env : Propagate.PropEnv) (inst : Propagate.PInstance)
    (vol : Propagate.PVolume) (tag_key : String) (dry_run : Bool) :
    noFileWrite (Propagate.propagate_tag_to_volume env inst vol tag_key dry_run).1
      = true := by
  unfold Propagate.propagate_tag_to_volume
  split
  · rfl
  · dsimp only
    split
    · rfl
    · exact noFileWrite_seqRun _ _ (prop_set_tag_noW env vol.id tag_key _) rfl

theorem prop_to_snapshot_noW (env : Propagate.PropEnv) (inst : Propagate.PInstance)
    (vol : Propagate.PVolume) (snap : Propagate.PSnapshot)
    (tag_key : String) (dry_run : Bool) :
    noFileWrite
      (Propagate.propagate_tag_to_snapshot env inst vol snap tag_key dry_run).1
      = true := by
  unfold Propagate.propagate_tag_to_snapshot
  split
  · rfl
  · dsimp only
    split
    · rfl
    · exact noFileWrite_seqRun _ _ (prop_set_tag_noW env snap.id tag_key _) rfl

theorem prop_snapshotsLoop_noW (env : Propagate.PropEnv) (inst : Propagate.PInstance)
    (vol : Propagate.PVolume) (tag_key : String) (dry_run : Bool) :
    ∀ snaps,
    noFileWrite (Propagate.snapshotsLoop env inst vol tag_key dry_run snaps).1
      = true := by
  intro snaps
  induction snaps with
  | nil => rfl
  | cons s rest ih =>
    rw [Propagate.snapshotsLoop]
    exact noFileWrite_seqRun _ _ (prop_to_snapshot_noW env inst vol s tag_key dry_run) ih

theorem prop_volumesLoop_noW (env : Propagate.PropEnv) (inst : Propagate.PInstance)
    (tag_key : String) (dry_run : Bool) :
    ∀ vols,
    noFileWrite (Propagate.volumesLoop env inst tag_key dry_run vols).1 = true := by
  intro vols
  induction vols with
  | nil => rfl
  | cons v rest ih =>
    rw [Propagate.volumesLoop]
    exact noFileWrite_seqRun _ _ (prop_to_volume_noW env inst v tag_key dry_run)
      (noFileWrite_seqRun _ _
        (prop_snapshotsLoop_noW env inst v tag_key dry_run v.snapshots) ih)

theorem prop_instanceBody_noW (env : Propagate.PropEnv) (inst : Propagate.PInstance)
    (tag_key : String) (dry_run : Bool) :
    noFileWrite (Propagate.instanceBody env inst tag_key dry_run).1 = true := by
  unfold Propagate.instanceBody
  split
  · exact prop_volumesLoop_noW env inst tag_key dry_run inst.volumes
  · rfl

theorem prop_instancesLoop_noW (env : Propagate.PropEnv) (tag_key : String)
    (dry_run : Bool) :
    ∀ insts,
    noFileWrite (Propagate.instancesLoop env tag_key dry_run insts).1 = true := by
  intro insts
  induction insts with
  | nil => rfl
  | cons inst rest ih =>
    rw [Propagate.instancesLoop]
    exact noFileWrite_seqRun _ _ (prop_instanceBody_noW env inst tag_key dry_run)
      (noFileWrite_seqRun _ _ rfl ih)

theorem prop_propagate_tag_noW (env : Propagate.PropEnv)
    (insts : List Propagate.PInstance) (tag_key : String) (dry_run : Bool) :
    noFileWrite (Propagate.propagate_tag env insts tag_key dry_run).1 = true := by
  unfold Propagate.propagate_tag
  exact noFileWrite_seqRun _ _ rfl (prop_instancesLoop_noW env tag_key dry_run insts)

theorem prop_reportSnapshotsLoop_noW (inst : Propagate.PInstance)
    (vol : Propagate.PVolume) (tag_key : String) :
    ∀ snaps,
    noFileWrite (Propagate.reportSnapshotsLoop inst vol tag_key snaps).1 = true := by
  intro snaps
  induction snaps with
  | nil => rfl
  | cons s rest ih =>
    rw [Propagate.reportSnapshotsLoop]
    exact noFileWrite_seqRun _ _ rfl ih

theorem prop_reportVolumesLoop_noW (inst : Propagate.PInstance) (tag_key : String) :
    ∀ vols, noFileWrite (Propagate.reportVolumesLoop inst tag_key vols).1 = true := by
  intro vols
  induction vols with
  | nil => rfl
  | cons v rest ih =>
    rw [Propagate.reportVolumesLoop]
    exact noFileWrite_seqRun _ _ rfl
      (noFileWrite_seqRun _ _
        (prop_reportSnapshotsLoop_noW inst v tag_key v.snapshots) ih)

theorem prop_reportInstancesLoop_noW (tag_key : String) :
    ∀ insts, noFileWrite (Propagate.reportInstancesLoop tag_key insts).1 = true := by
  intro insts
  induction insts with
  | nil => rfl
  | cons inst rest ih =>
    rw [Propagate.reportInstancesLoop]
    exact noFileWrite_seqRun _ _
      (prop_reportVolumesLoop_noW inst tag_key inst.volumes)
      (noFileWrite_seqRun _ _ rfl ih)

theorem prop_print_report_noW (insts : List Propagate.PInstance) (tag_key : String) :
    noFileWrite (Propagate.print_report insts tag_key).1 = true := by
  unfold Propagate.print_report
  exact noFileWrite_seqRun _ _ rfl (prop_reportInstancesLoop_noW tag_key insts)

theorem prop_main_noW (env : Propagate.PropEnv) (a : Propagate.PropArgs)
    (mode : Propagate.PropMode) (tag_key : String) (dry_run : Bool) :
    noFileWrite (Propagate.propagateTagsMain env a mode tag_key dry_run).1 = true := by
  unfold Propagate.propagateTagsMain
  cases henv : env.instancesResp with
  | error e =>
    dsimp only
    cases e <;> rfl
  | ok insts =>
    dsimp only
    cases mode with
    | report =>
      have hM := prop_print_report_noW insts tag_key
      rcases hy : Propagate.print_report insts tag_key with ⟨yes, yo⟩
      rw [hy] at hM
      dsimp only at hM
      dsimp only [seqRun]
      split
      · rename_i es2 m2 heq
        injection heq with hA hB
        rw [← hA]
        simp [noFileWrite_append, noFileWrite_cons, noFileWrite_nil,
          Effect.isFileWrite, hM]
      · simp [noFileWrite_append, noFileWrite_cons, noFileWrite_nil,
          Effect.isFileWrite, hM]
    | propagate =>
      have hM := prop_propagate_tag_noW env insts tag_key dry_run
      rcases hy : Propagate.propagate_tag env insts tag_key dry_run with ⟨yes, yo⟩
      rw [hy] at hM
      dsimp only at hM
      dsimp only [seqRun]
      split
      · rename_i es2 m2 heq
        injection heq with hA hB
        rw [← hA]
        simp [noFileWrite_append, noFileWrite_cons, noFileWrite_nil,
          Effect.isFileWrite, hM]
      · simp [noFileWrite_append, noFileWrite_cons, noFileWrite_nil,
          Effect.isFileWrite, hM]

theorem del_resourceLines_noW (env : DeleteTag.DelEnv) (a : DeleteTag.DelArgs)
    (rid : String) (tags : List Tag) :
    noFileWrite (DeleteTag.resourceLines env a rid tags).1 = true := by
  unfold DeleteTag.resourceLines
  refine noFileWrite_seqRun _ _ rfl ?_
  split
  · exact noFileWrite_seqRun _ _ rfl rfl
  · rfl

theorem del_instanceItemsLoop_noW (env : DeleteTag.DelEnv) (a : DeleteTag.DelArgs) :
    ∀ is0, noFileWrite (DeleteTag.instanceItemsLoop env a is0).1 = true := by
  intro is0
  induction is0 with
  | nil => rfl
  | cons i rest ih =>
    rw [DeleteTag.instanceItemsLoop]
    exact noFileWrite_seqRun _ _ (del_resourceLines_noW env a i.InstanceId i.Tags) ih

theorem del_reservationsLoop_noW (env : DeleteTag.DelEnv) (a : DeleteTag.DelArgs) :
    ∀ rs, noFileWrite (DeleteTag.reservationsLoop env a rs).1 = true := by
  intro rs
  induction rs with
  | nil => rfl
  | cons r rest ih =>
    rw [DeleteTag.reservationsLoop]
    exact noFileWrite_seqRun _ _ (del_instanceItemsLoop_noW env a r) ih

theorem del_volumeItemsLoop_noW (env : DeleteTag.DelEnv) (a : DeleteTag.DelArgs) :
    ∀ vs, noFileWrite (DeleteTag.volumeItemsLoop env a vs).1 = true := by
  intro vs
  induction vs with
  | nil => rfl
  | cons v rest ih =>
    rw [DeleteTag.volumeItemsLoop]
    exact noFileWrite_seqRun _ _ (del_resourceLines_noW env a v.VolumeId v.Tags) ih

theorem del_snapshotItemsLoop_noW (env : DeleteTag.DelEnv) (a : DeleteTag.DelArgs) :
    ∀ ss, noFileWrite (DeleteTag.snapshotItemsLoop env a ss).1 = true := by
  intro ss
  induction ss with
  | nil => rfl
  | cons s rest ih =>
    rw [DeleteTag.snapshotItemsLoop]
    exact noFileWrite_seqRun _ _ (del_resourceLines_noW env a s.SnapshotId s.Tags) ih

theorem del_snapshotsPhase_noW (env : DeleteTag.DelEnv) (a : DeleteTag.DelArgs) :
    noFileWrite (DeleteTag.snapshotsPhase env a).1 = true := by
  unfold DeleteTag.snapshotsPhase
  split
  next e heq => rfl
  next resp heq =>
    exact noFileWrite_seqRun _ _ rfl (del_snapshotItemsLoop_noW env a resp.Snapshots)

theorem del_volumesPhase_noW (env : DeleteTag.DelEnv) (a : DeleteTag.DelArgs) :
    noFileWrite (DeleteTag.volumesPhase env a).1 = true := by
  unfold DeleteTag.volumesPhase
  split
  next e heq => rfl
  next resp heq =>
    exact noFileWrite_seqRun _ _ rfl
      (noFileWrite_seqRun _ _ (del_volumeItemsLoop_noW env a resp.Volumes)
        (del_snapshotsPhase_noW env a))

theorem del_body_noW (env : DeleteTag.DelEnv) (a : DeleteTag.DelArgs) :
    noFileWrite (DeleteTag.deleteTagBody env a).1 = true := by
  unfold DeleteTag.deleteTagBody
  split
  next e heq => rfl
  next resp heq =>
    exact noFileWrite_seqRun _ _ rfl
      (noFileWrite_seqRun _ _ (del_reservationsLoop_noW env a resp.Reservations)
        (del_volumesPhase_noW env a))

theorem del_main_noW (env : DeleteTag.DelEnv) (a : DeleteTag.DelArgs) :
    noFileWrite (DeleteTag.deleteTagMain env a).1 = true := by
  have hb := del_body_noW env a
  unfold DeleteTag.deleteTagMain
  rcases hbe : DeleteTag.deleteTagBody env a with ⟨es, o⟩
  rw [hbe] at hb
  dsimp only at hb
  first
  | rw [hbe]
  | skip
  split
  · rename_i es2 m2 heq
    injection heq with hA hB
    rw [← hA]
    simp [noFileWrite_append, noFileWrite_cons, noFileWrite_nil, Effect.isFileWrite, hb]
  · simp [noFileWrite_append, noFileWrite_cons, noFileWrite_nil, Effect.isFileWrite, hb]

theorem iam_keysLoop_noW : ∀ ks, noFileWrite (FindIam.keysLoop ks).1 = true := by
  intro ks
  induction ks with
  | nil => rfl
  | cons k rest ih =>
    rw [FindIam.keysLoop]
    refine noFileWrite_seqRun _ _ ?_ ih
    split <;> rfl

theorem iam_usersLoop_noW (env : FindIam.IamEnv) :
    ∀ us, noFileWrite (FindIam.usersLoop env us).1 = true := by
  intro us
  induction us with
  | nil => rfl
  | cons u rest ih =>
    rw [FindIam.usersLoop]
    refine noFileWrite_seqRun _ _ ?_ ih
    split
    next e heq => rfl
    next resp heq =>
      exact noFileWrite_seqRun _ _ rfl (iam_keysLoop_noW resp.AccessKeyMetadata)

theorem iam_main_noW (env : FindIam.IamEnv) :
    noFileWrite (FindIam.findIamMain env).1 = true := by
  unfold FindIam.findIamMain
  split
  next heq => rfl
  next resp heq => exact noFileWrite_seqRun _ _ rfl (iam_usersLoop_noW env resp.Users)

theorem dyn_rowsLoop_noW (env : DynamoImport.DynEnv) (table : String)
    (header : List String) :
    ∀ rows, noFileWrite (DynamoImport.rowsLoop env table header rows).1 = true := by
  intro rows
  induction rows with
  | nil => rfl
  | cons row rest ih =>
    rw [DynamoImport.rowsLoop]
    split
    next e heq => rfl
    next data heq => exact noFileWrite_seqRun _ _ rfl ih

theorem dyn_main_noW (env : DynamoImport.DynEnv) (table csv : String) :
    noFileWrite (DynamoImport.dynamoImportMain env table csv).1 = true := by
  unfold DynamoImport.dynamoImportMain
  refine noFileWrite_seqRun _ _ rfl ?_
  split
  next heq => rfl
  next header rows heq => exact dyn_rowsLoop_noW env table header rows

theorem sg_pairsLoop_noW (selfId : String) (m : List (String × String))
    (rule_type : String) (rule : GetSG.SGRule) :
    ∀ (ps : List GetSG.GroupPair) (comment : String) (src0 : Option String),
    noFileWrite (GetSG.pairsLoop selfId m rule_type rule ps comment src0).1 = true := by
  intro ps
  induction ps with
  | nil => intro c s; rfl
  | cons p rest ih =>
    intro c s
    rw [GetSG.pairsLoop]
    dsimp only
    split
    next heq => rfl
    next src heq => exact noFileWrite_seqRun _ _ rfl (ih _ _)

theorem sg_rangesLoop_noW (rule_type : String) (rule : GetSG.SGRule) :
    ∀ rs, noFileWrite (GetSG.rangesLoop rule_type rule rs).1 = true := by
  intro rs
  induction rs with
  | nil => rfl
  | cons s rest ih =>
    rw [GetSG.rangesLoop]
    exact noFileWrite_seqRun _ _ rfl ih

theorem sg_print_rule_noW (selfId : String) (m : List (String × String))
    (rule_type : String) (rule : GetSG.SGRule) :
    noFileWrite (GetSG.print_rule selfId m rule_type rule).1 = true := by
  unfold GetSG.print_rule
  exact noFileWrite_seqRun _ _
    (sg_pairsLoop_noW selfId m rule_type rule rule.UserIdGroupPairs "" none)
    (sg_rangesLoop_noW rule_type rule _)

theorem sg_rulesLoop_noW (selfId : String) (m : List (String × String))
    (rule_type : String) :
    ∀ rules, noFileWrite (GetSG.rulesLoop selfId m rule_type rules).1 = true := by
  intro rules
  induction rules with
  | nil => rfl
  | cons rule rest ih =>
    rw [GetSG.rulesLoop]
    exact noFileWrite_seqRun _ _ (sg_print_rule_noW selfId m rule_type rule) ih

theorem sg_sgBlock_noW (m : List (String × String)) (sg : GetSG.SG) :
    noFileWrite (GetSG.sgBlock m sg).1 = true := by
  unfold GetSG.sgBlock
  dsimp only
  exact noFileWrite_seqRun _ _ rfl
    (noFileWrite_seqRun _ _ (sg_rulesLoop_noW sg.id m "ingress" sg.ip_permissions)
      (sg_rulesLoop_noW sg.id m "egress" sg.ip_permissions_egress))

theorem sg_sgsLoop_noW (m : List (String × String)) :
    ∀ sgs, noFileWrite (GetSG.sgsLoop m sgs).1 = true := by
  intro sgs
  induction sgs with
  | nil => rfl
  | cons sg rest ih =>
    rw [GetSG.sgsLoop]
    exact noFileWrite_seqRun _ _ (sg_sgBlock_noW m sg) ih

theorem sg_main_noW (env : GetSG.SgEnv) (vpc_id : String) (sg_limit : Option String) :
    noFileWrite (GetSG.getSgMain env vpc_id sg_limit).1 = true := by
  unfold GetSG.getSgMain
  split
  next e heq => rfl
  next sgs heq =>
    dsimp only
    exact noFileWrite_seqRun _ _ rfl
      (noFileWrite_seqRun _ _ rfl
        (noFileWrite_seqRun _ _ rfl (sg_sgsLoop_noW _ sgs)))

/-- C9: across every whole invocation of every script in the collection, no
durable local state is created: the trace of effects contains no write to
the local filesystem — the only effects are prints/log lines, API calls
and mutations applied through the vendor API (dynamodb-import additionally
reads its input CSV), so every API-returned mapping lives only inside the
invocation and is discarded when the process exits. -/
theorem C9_no_durable_local_state :
    (∀ (env : CloudTrail.CtEnv) (event : CloudTrail.CtEvent),
      noFileWrite (CloudTrail.lambda_handler env event).1 = true)
    ∧ (∀ (env : Propagate.PropEnv) (a : Propagate.PropArgs)
        (mode : Propagate.PropMode) (tag_key : String) (dry_run : Bool),
      noFileWrite (Propagate.propagateTagsMain env a mode tag_key dry_run).1 = true)
    ∧ (∀ (env : DeleteTag.DelEnv) (a : DeleteTag.DelArgs),
      noFileWrite (DeleteTag.deleteTagMain env a).1 = true)
    ∧ (∀ (env : FindIam.IamEnv),
      noFileWrite (FindIam.findIamMain env).1 = true)
    ∧ (∀ (env : DynamoImport.DynEnv) (table csv : String),
      noFileWrite (DynamoImport.dynamoImportMain env table csv).1 = true)
    ∧ (∀ (env : GetSG.SgEnv) (vpc_id : String) (sg_limit : Option String),
      noFileWrite (GetSG.getSgMain env vpc_id sg_limit).1 = true) :=
  ⟨ct_main_noW, prop_main_noW, del_main_noW, iam_main_noW, dyn_main_noW, sg_main_noW⟩

/-- The `--report` invocation of delete-tag. -/
def delArgsReport : DeleteTag.DelArgs := ⟨none, "AppName", true, false, false⟩

/-- The `--delete --dry-run` invocation of delete-tag. -/
def delArgsDryDelete : DeleteTag.DelArgs := ⟨none, "AppName", false, true, true⟩

/-- Witness for C6 at the concrete environments: no mutation in the dry
modes, and the report and dry-delete invocations coincide. -/
theorem C6_dry_run_no_mutation_witness :
    mutationsOf
      (Propagate.propagate_tag Propagate.envP [Propagate.instDiff] "AppName" true).1 = []
    ∧ DeleteTag.deleteTagMain denvW delArgsReport
      = DeleteTag.deleteTagMain denvW delArgsDryDelete := by
  have h := C6_dry_run_no_mutation Propagate.envP [Propagate.instDiff] "AppName"
    (fun _ _ _ => rfl) denvW delArgsReport delArgsDryDelete rfl rfl (by decide) (by decide)
  exact ⟨h.1, h.2.2.2.2⟩

end AwsTools
